import Mathlib

/-!
Verification development for the Synapse-Net Python simulation core
(src/python_simulation).  The Python modules are shallowly embedded:
every definition below mirrors a function or data structure of the source,
with float arithmetic modelled over the rationals (and over the reals where
a square root is taken), Python dicts over `NodeId` as total functions
(the engine initialises an entry for all five nodes), Python dicts over
service-id strings as association lists, and every random draw passed in
explicitly as a parameter.
-/

namespace SynapseNet

/-! ## Data model (models.py) -/

/-- Node identifiers, mirroring `NodeId` in models.py. -/
inductive NodeId where
  | EDGE1
  | EDGE2
  | CORE1
  | CORE2
  | CLOUD1
deriving DecidableEq, Repr, Fintype

/-- Failure types, mirroring `FailureType` in models.py. -/
inductive FailureType where
  | CRASH
  | OMISSION
  | BYZANTINE
  | NETWORK_PARTITION
deriving DecidableEq, Repr, Fintype

/-- The five nodes in Python enumeration order (`for node in NodeId`). -/
def allNodesList : List NodeId :=
  [NodeId.EDGE1, NodeId.EDGE2, NodeId.CORE1, NodeId.CORE2, NodeId.CLOUD1]

/-- Per-node baseline capacity, mirroring `NodeMetrics` in models.py.
`transactionsPerSec` is an integer in the source; it is carried here as an
integer-valued rational so that the mixed int/float comparisons of the
source become plain rational comparisons. -/
structure NodeMetrics where
  latency : ℚ
  throughput : ℚ
  packetLoss : ℚ
  cpuUtilization : ℚ
  memoryUsage : ℚ
  transactionsPerSec : ℚ
  lockContention : ℚ
deriving DecidableEq, Repr

/-- Mirrors `ServiceRequest` from models.py (`transaction_load` integer-valued). -/
structure ServiceRequest where
  serviceId : String
  cpuRequirement : ℚ
  memoryRequirement : ℚ
  transactionLoad : ℚ
  priority : ℚ
  timestamp : ℚ
deriving DecidableEq, Repr

/-- Mirrors `FailureScenario` from models.py. -/
structure FailureScenario where
  nodeId : NodeId
  failureType : FailureType
  startTime : ℚ
  duration : ℚ
  severity : ℚ
  recoveryTime : Option ℚ := none
deriving DecidableEq, Repr

/-- Mirrors `MigrationEvent` from models.py. -/
structure MigrationEvent where
  serviceId : String
  sourceNode : NodeId
  destinationNode : NodeId
  startTime : ℚ
  completionTime : Option ℚ := none
  success : Bool := true
  reason : String := ""
deriving DecidableEq, Repr

/-- Mirrors `LoadBalancingMetrics` from models.py.  The three distribution dicts are
total functions because the engine initialises all five nodes; the
transaction distribution is integer-valued in the source. -/
structure LoadBalancingMetrics where
  cpuDistribution : NodeId → ℚ
  memoryDistribution : NodeId → ℚ
  transactionDistribution : NodeId → ℚ
  loadBalanceIndex : ℚ
  totalServices : ℕ
  migrations : ℕ
  lastUpdateTimestamp : ℚ

/-- Mirrors `SimulationState` from models.py.  `node_metrics` is a total function
(the engine copies a baseline entry for every node at construction);
`service_allocations` is a key/value list standing for the Python dict. -/
structure SimulationState where
  currentTime : ℚ
  activeNodes : Finset NodeId
  failedNodes : Finset NodeId
  nodeMetrics : NodeId → NodeMetrics
  serviceAllocations : List (String × NodeId)
  activeFailures : List FailureScenario
  migrationHistory : List MigrationEvent
  loadBalancingMetrics : LoadBalancingMetrics

/-- The default `node_baseline_metrics` table built in
`SimulationConfig.__post_init__` (models.py). -/
def defaultNodeBaselineMetrics : NodeId → NodeMetrics
  | NodeId.EDGE1 =>
    { latency := 12, throughput := 500, packetLoss := 0.1, cpuUtilization := 45,
      memoryUsage := 8, transactionsPerSec := 150, lockContention := 8 }
  | NodeId.EDGE2 =>
    { latency := 15, throughput := 470, packetLoss := 0.2, cpuUtilization := 50,
      memoryUsage := 4.5, transactionsPerSec := 100, lockContention := 12 }
  | NodeId.CORE1 =>
    { latency := 8, throughput := 1000, packetLoss := 0.05, cpuUtilization := 60,
      memoryUsage := 12, transactionsPerSec := 250, lockContention := 5 }
  | NodeId.CORE2 =>
    { latency := 10, throughput := 950, packetLoss := 0.08, cpuUtilization := 55,
      memoryUsage := 10, transactionsPerSec := 200, lockContention := 10 }
  | NodeId.CLOUD1 =>
    { latency := 22, throughput := 1250, packetLoss := 0.15, cpuUtilization := 72,
      memoryUsage := 16, transactionsPerSec := 300, lockContention := 15 }

/-- The simulation state built in `LoadBalancerSimulation.__init__`
(load_balancer_simulation.py lines 35-52): all nodes active, no failures,
all load distributions zero, balance index 1. -/
def initialSimulationState : SimulationState where
  currentTime := 0
  activeNodes := Finset.univ
  failedNodes := ∅
  nodeMetrics := defaultNodeBaselineMetrics
  serviceAllocations := []
  activeFailures := []
  migrationHistory := []
  loadBalancingMetrics :=
    { cpuDistribution := fun _ => 0
      memoryDistribution := fun _ => 0
      transactionDistribution := fun _ => 0
      loadBalanceIndex := 1
      totalServices := 0
      migrations := 0
      lastUpdateTimestamp := 0 }

/-! ## RedundancyFailoverManager (redundancy_failover.py) -/

/-- Mirrors `RedundancyStrategy` enum. -/
inductive RedundancyStrategy where
  | ACTIVE_ACTIVE
  | ACTIVE_PASSIVE
  | N_WAY_REPLICATION
  | GEOGRAPHIC_REDUNDANCY
deriving DecidableEq, Repr

/-- Mirrors `FailoverMode` enum. -/
inductive FailoverMode where
  | AUTOMATIC
  | SEMI_AUTOMATIC
  | MANUAL
deriving DecidableEq, Repr

/-- Mirrors `RiskAssessment` dataclass (externally supplied input). -/
structure RiskAssessment where
  nodeId : NodeId
  riskScore : ℚ
  failureType : FailureType
  criticalityScore : ℚ
  dependentNodes : Finset NodeId
  cascadeRiskScore : ℚ
  mitigationStrategies : List String
deriving DecidableEq

/-- Mirrors `high_risk_threshold` from `RedundancyFailoverManager.__init__`. -/
def highRiskThreshold : ℚ := 0.7

/-- Mirrors `critical_risk_threshold` from `RedundancyFailoverManager.__init__`. -/
def criticalRiskThreshold : ℚ := 0.85

/-- Mirrors `_select_redundancy_strategy` (redundancy_failover.py lines 153-176),
translated branch for branch. -/
def selectRedundancyStrategy (risk : RiskAssessment) : RedundancyStrategy :=
  if criticalRiskThreshold ≤ risk.riskScore then
    if risk.failureType = FailureType.BYZANTINE then
      RedundancyStrategy.N_WAY_REPLICATION
    else
      RedundancyStrategy.ACTIVE_ACTIVE
  else if highRiskThreshold ≤ risk.riskScore then
    if 2 < risk.dependentNodes.card then
      RedundancyStrategy.ACTIVE_ACTIVE
    else
      RedundancyStrategy.ACTIVE_PASSIVE
  else if (0.5 : ℚ) ≤ risk.riskScore then
    RedundancyStrategy.ACTIVE_PASSIVE
  else
    RedundancyStrategy.GEOGRAPHIC_REDUNDANCY

/-- The decision table exactly as the specification words it: risk at or
above 0.85 with Byzantine failure type gives N-way replication, otherwise
active-active; risk at or above 0.70 gives active-active when there are
more than two dependents and active-passive otherwise; risk at or above
0.50 gives active-passive; anything lower gives geographic redundancy. -/
def specStrategyTable (risk : RiskAssessment) : RedundancyStrategy :=
  if (0.85 : ℚ) ≤ risk.riskScore then
    if risk.failureType = FailureType.BYZANTINE then
      RedundancyStrategy.N_WAY_REPLICATION
    else
      RedundancyStrategy.ACTIVE_ACTIVE
  else if (0.7 : ℚ) ≤ risk.riskScore then
    if 2 < risk.dependentNodes.card then
      RedundancyStrategy.ACTIVE_ACTIVE
    else
      RedundancyStrategy.ACTIVE_PASSIVE
  else if (0.5 : ℚ) ≤ risk.riskScore then
    RedundancyStrategy.ACTIVE_PASSIVE
  else
    RedundancyStrategy.GEOGRAPHIC_REDUNDANCY

/-- A concrete 0.90-risk Byzantine assessment, as in the end-to-end
scenario of the claim. -/
def byzantineRisk090 : RiskAssessment where
  nodeId := NodeId.CORE1
  riskScore := 0.9
  failureType := FailureType.BYZANTINE
  criticalityScore := 0.95
  dependentNodes := {NodeId.EDGE1, NodeId.EDGE2}
  cascadeRiskScore := 0.8
  mitigationStrategies := []

/-- Claim C9: every `RiskAssessment` is mapped to the redundancy strategy
required by the decision table on risk score and failure type, and in
particular a node with risk 0.90 and Byzantine failure type gets N-way
replication. -/
theorem selectRedundancyStrategy_follows_decision_table :
    (∀ risk : RiskAssessment, selectRedundancyStrategy risk = specStrategyTable risk) ∧
    selectRedundancyStrategy byzantineRisk090 = RedundancyStrategy.N_WAY_REPLICATION := by
  constructor
  · intro risk
    rfl
  · with_unfolding_all decide

/-! ## Engine state update for failures (load_balancer_simulation.py,
`_update_system_state` lines 351-369) -/

/-- One iteration of the `for failure in self.state.active_failures` loop of
`_update_system_state`: a failure whose window contains `now` moves its node
from the active set to the failed set; a failure whose window has passed
moves the node back (when it is currently failed) and stamps the recovery
time.  The accumulator carries the two node sets and the rebuilt failure
list. -/
def applyFailureWindow (now : ℚ)
    (acc : (Finset NodeId × Finset NodeId) × List FailureScenario)
    (f : FailureScenario) :
    (Finset NodeId × Finset NodeId) × List FailureScenario :=
  let active := acc.1.1
  let failed := acc.1.2
  if f.startTime ≤ now ∧ now ≤ f.startTime + f.duration then
    ((active.erase f.nodeId, insert f.nodeId failed), acc.2 ++ [f])
  else if f.startTime + f.duration < now then
    if f.nodeId ∈ failed then
      ((insert f.nodeId active, failed.erase f.nodeId),
        acc.2 ++ [{ f with recoveryTime := some now }])
    else (acc.1, acc.2 ++ [f])
  else (acc.1, acc.2 ++ [f])

/-- The failure-handling section of `_update_system_state`: the newly
injected failures are appended to `active_failures` and then every failure
is processed by the window loop.  (The remaining sections of
`_update_system_state` touch only `service_allocations`, the migration
counters and the load-balance index, never the two node sets.) -/
def updateSystemStateFailures (now : ℚ) (newFailures : List FailureScenario)
    (st : SimulationState) : SimulationState :=
  let r := (st.activeFailures ++ newFailures).foldl (applyFailureWindow now)
    ((st.activeNodes, st.failedNodes), [])
  { st with
      currentTime := now
      activeNodes := r.1.1
      failedNodes := r.1.2
      activeFailures := r.2 }

/-- A run of the engine loop restricted to the failure-handling part of the
state update: each tick supplies its update time and the failures injected
during that tick. -/
def runFailureTicks (ticks : List (ℚ × List FailureScenario)) : SimulationState :=
  ticks.foldl (fun st tk => updateSystemStateFailures tk.1 tk.2 st)
    initialSimulationState

/-- The invariant of the claim: the active and failed node sets are
disjoint and jointly cover all five nodes. -/
def NodesPartitionInv (st : SimulationState) : Prop :=
  st.activeNodes ∩ st.failedNodes = ∅ ∧
  st.activeNodes ∪ st.failedNodes = Finset.univ

lemma applyFailureWindow_inv (now : ℚ)
    (acc : (Finset NodeId × Finset NodeId) × List FailureScenario)
    (f : FailureScenario)
    (h1 : acc.1.1 ∩ acc.1.2 = ∅) (h2 : acc.1.1 ∪ acc.1.2 = Finset.univ) :
    (applyFailureWindow now acc f).1.1 ∩ (applyFailureWindow now acc f).1.2 = ∅ ∧
    (applyFailureWindow now acc f).1.1 ∪ (applyFailureWindow now acc f).1.2 = Finset.univ := by
  have h1' : ∀ x, ¬(x ∈ acc.1.1 ∧ x ∈ acc.1.2) := by
    intro x hx
    have : x ∈ acc.1.1 ∩ acc.1.2 := Finset.mem_inter.mpr hx
    simp [h1] at this
  have h2' : ∀ x : NodeId, x ∈ acc.1.1 ∨ x ∈ acc.1.2 := by
    intro x
    have : x ∈ acc.1.1 ∪ acc.1.2 := by simp [h2]
    exact Finset.mem_union.mp this
  by_cases hw : f.startTime ≤ now ∧ now ≤ f.startTime + f.duration
  · simp only [applyFailureWindow, if_pos hw]
    constructor
    · apply Finset.eq_empty_iff_forall_not_mem.mpr
      intro x hx
      simp only [Finset.mem_inter, Finset.mem_erase, Finset.mem_insert] at hx
      rcases hx with ⟨⟨hxn, hxa⟩, hxf⟩
      rcases hxf with h | h
      · exact hxn h
      · exact h1' x ⟨hxa, h⟩
    · apply Finset.eq_univ_iff_forall.mpr
      intro x
      simp only [Finset.mem_union, Finset.mem_erase, Finset.mem_insert]
      by_cases hx : x = f.nodeId
      · tauto
      · rcases h2' x with h | h <;> tauto
  · by_cases hp : f.startTime + f.duration < now
    · by_cases hm : f.nodeId ∈ acc.1.2
      · simp only [applyFailureWindow, if_neg hw, if_pos hp, if_pos hm]
        constructor
        · apply Finset.eq_empty_iff_forall_not_mem.mpr
          intro x hx
          simp only [Finset.mem_inter, Finset.mem_insert, Finset.mem_erase] at hx
          rcases hx with ⟨hxa, hxn, hxf⟩
          rcases hxa with h | h
          · exact hxn h
          · exact h1' x ⟨h, hxf⟩
        · apply Finset.eq_univ_iff_forall.mpr
          intro x
          simp only [Finset.mem_union, Finset.mem_insert, Finset.mem_erase]
          by_cases hx : x = f.nodeId
          · tauto
          · rcases h2' x with h | h <;> tauto
      · simp only [applyFailureWindow, if_neg hw, if_pos hp, if_neg hm]
        exact ⟨h1, h2⟩
    · simp only [applyFailureWindow, if_neg hw, if_neg hp]
      exact ⟨h1, h2⟩

lemma foldl_applyFailureWindow_inv (now : ℚ) :
    ∀ (fs : List FailureScenario)
      (acc : (Finset NodeId × Finset NodeId) × List FailureScenario),
      acc.1.1 ∩ acc.1.2 = ∅ → acc.1.1 ∪ acc.1.2 = Finset.univ →
      (fs.foldl (applyFailureWindow now) acc).1.1 ∩
        (fs.foldl (applyFailureWindow now) acc).1.2 = ∅ ∧
      (fs.foldl (applyFailureWindow now) acc).1.1 ∪
        (fs.foldl (applyFailureWindow now) acc).1.2 = Finset.univ := by
  intro fs
  induction fs with
  | nil => intro acc h1 h2; exact ⟨h1, h2⟩
  | cons f fs ih =>
    intro acc h1 h2
    have h := applyFailureWindow_inv now acc f h1 h2
    exact ih (applyFailureWindow now acc f) h.1 h.2

lemma updateSystemStateFailures_inv (now : ℚ) (nf : List FailureScenario)
    (st : SimulationState) (h : NodesPartitionInv st) :
    NodesPartitionInv (updateSystemStateFailures now nf st) := by
  obtain ⟨h1, h2⟩ := h
  unfold updateSystemStateFailures NodesPartitionInv
  exact foldl_applyFailureWindow_inv now (st.activeFailures ++ nf)
    ((st.activeNodes, st.failedNodes), []) h1 h2

/-- Claim C5: from the initial state, and after every execution of the
engine state update (at any times, with any injected failures), the active
and failed node sets partition the full five-node set. -/
theorem nodeSets_partition_every_tick :
    NodesPartitionInv initialSimulationState ∧
    ∀ ticks : List (ℚ × List FailureScenario),
      NodesPartitionInv (runFailureTicks ticks) := by
  have hinit : NodesPartitionInv initialSimulationState := by
    constructor <;> simp [initialSimulationState]
  refine ⟨hinit, ?_⟩
  intro ticks
  unfold runFailureTicks
  have : ∀ (tks : List (ℚ × List FailureScenario)) (st : SimulationState),
      NodesPartitionInv st →
      NodesPartitionInv
        (tks.foldl (fun st tk => updateSystemStateFailures tk.1 tk.2 st) st) := by
    intro tks
    induction tks with
    | nil => intro st h; exact h
    | cons tk tks ih =>
      intro st h
      exact ih _ (updateSystemStateFailures_inv tk.1 tk.2 st h)
  exact this ticks initialSimulationState hinit

/-! ## Claim C4: the CRASH-failure window scenario -/

/-- The failure of the end-to-end scenario: CRASH on a given node, start
`T`, duration 10, severity 0.8, as built by
`FailureInjector.inject_specific_failure`. -/
def c4Failure (node : NodeId) (T : ℚ) : FailureScenario :=
  { nodeId := node, failureType := FailureType.CRASH, startTime := T,
    duration := 10, severity := 0.8, recoveryTime := none }

/-- Counterexample to claim C4 as stated: with the failure injected at
`T = 0` and the state update run at `now = T + 10 = 10`, the node is still
in `failedNodes` (the source window test is `start ≤ now ≤ start+duration`,
closed on the right), while the claim requires it to be in `activeNodes`
whenever `now ≥ T + 10`. -/
theorem failure_window_boundary_counterexample :
    NodeId.EDGE1 ∈ (runFailureTicks [(0, [c4Failure NodeId.EDGE1 0]), (10, [])]).failedNodes ∧
    NodeId.EDGE1 ∉ (runFailureTicks [(0, [c4Failure NodeId.EDGE1 0]), (10, [])]).activeNodes := by
  constructor <;> with_unfolding_all decide

/-- Claim C4 (amended): the node is in `failedNodes` exactly when
`T ≤ now ≤ T + 10` (a closed interval, not the half-open one of the
original claim); after an update strictly beyond `T + 10` that follows an
update inside the window, the node is back in `activeNodes` and the
scenario carries the non-null recovery time. -/
theorem failure_window_amended (node : NodeId) (T now t2 : ℚ) :
    ((T ≤ now ∧ now ≤ T + 10 →
      node ∈ (updateSystemStateFailures now [c4Failure node T] initialSimulationState).failedNodes ∧
      node ∉ (updateSystemStateFailures now [c4Failure node T] initialSimulationState).activeNodes) ∧
     (now < T ∨ T + 10 < now →
      node ∈ (updateSystemStateFailures now [c4Failure node T] initialSimulationState).activeNodes ∧
      node ∉ (updateSystemStateFailures now [c4Failure node T] initialSimulationState).failedNodes)) ∧
    (T ≤ now → now ≤ T + 10 → T + 10 < t2 →
      node ∈ (updateSystemStateFailures t2 []
        (updateSystemStateFailures now [c4Failure node T] initialSimulationState)).activeNodes ∧
      node ∉ (updateSystemStateFailures t2 []
        (updateSystemStateFailures now [c4Failure node T] initialSimulationState)).failedNodes ∧
      (updateSystemStateFailures t2 []
        (updateSystemStateFailures now [c4Failure node T] initialSimulationState)).activeFailures =
        [{ c4Failure node T with recoveryTime := some t2 }]) := by
  have hwin : ∀ h1 : T ≤ now ∧ now ≤ T + 10,
      updateSystemStateFailures now [c4Failure node T] initialSimulationState =
      { initialSimulationState with
          currentTime := now
          activeNodes := Finset.univ.erase node
          failedNodes := insert node ∅
          activeFailures := [c4Failure node T] } := by
    intro h1
    simp [updateSystemStateFailures, initialSimulationState, applyFailureWindow, c4Failure, h1.1, h1.2]
  refine ⟨⟨?_, ?_⟩, ?_⟩
  · intro h1
    rw [hwin h1]
    simp
  · intro h1
    have hnot : ¬((c4Failure node T).startTime ≤ now ∧
        now ≤ (c4Failure node T).startTime + (c4Failure node T).duration) := by
      simp only [c4Failure]
      rcases h1 with h | h
      · intro hc; linarith [hc.1]
      · intro hc; linarith [hc.2]
    unfold updateSystemStateFailures
    simp only [initialSimulationState, List.nil_append, List.foldl_cons, List.foldl_nil]
    by_cases hp : (c4Failure node T).startTime + (c4Failure node T).duration < now
    · have hm : (c4Failure node T).nodeId ∉ (∅ : Finset NodeId) := by simp
      simp only [applyFailureWindow, if_neg hnot, if_pos hp, if_neg hm]
      simp
    · simp only [applyFailureWindow, if_neg hnot, if_neg hp]
      simp
  · intro ha hb hc
    rw [hwin ⟨ha, hb⟩]
    unfold updateSystemStateFailures
    simp only [List.append_nil, List.foldl_cons, List.foldl_nil]
    have hnw : ¬((c4Failure node T).startTime ≤ t2 ∧
        t2 ≤ (c4Failure node T).startTime + (c4Failure node T).duration) := by
      simp only [c4Failure]
      intro h; linarith [h.2]
    have hp : (c4Failure node T).startTime + (c4Failure node T).duration < t2 := by
      simp only [c4Failure]; linarith
    have hm : (c4Failure node T).nodeId ∈ insert node (∅ : Finset NodeId) := by
      simp [c4Failure]
    simp only [applyFailureWindow, if_neg hnw, if_pos hp, if_pos hm]
    refine ⟨by simp [c4Failure], by simp [c4Failure], by simp [c4Failure]⟩

/-- Witness for the amended C4 theorem at `node = EDGE1`, `T = 0`,
`now = 5`, `t2 = 11`. -/
theorem failure_window_amended_witness :
    NodeId.EDGE1 ∈ (updateSystemStateFailures 5 [c4Failure NodeId.EDGE1 0] initialSimulationState).failedNodes ∧
    NodeId.EDGE1 ∈ (updateSystemStateFailures 11 []
      (updateSystemStateFailures 5 [c4Failure NodeId.EDGE1 0] initialSimulationState)).activeNodes := by
  have h := failure_window_amended NodeId.EDGE1 0 5 11
  refine ⟨(h.1.1 ⟨by norm_num, by norm_num⟩).1, ?_⟩
  exact (h.2 (by norm_num) (by norm_num) (by norm_num)).1

/-! ## Load balance index (load_balancer_simulation.py,
`_update_load_balance_index` lines 385-403).  The source computes over
floats; the computation is modelled over the reals, applied to the list of
values of `cpu_distribution`. -/

/-- Mirrors `mean_load = sum(cpu_loads) / len(cpu_loads)`. -/
noncomputable def meanLoad (cpuLoads : List ℝ) : ℝ :=
  cpuLoads.sum / cpuLoads.length

/-- Mirrors `variance = sum((load - mean_load) ** 2 for load in cpu_loads) / len(cpu_loads)`. -/
noncomputable def loadVariance (cpuLoads : List ℝ) : ℝ :=
  (cpuLoads.map fun load => (load - meanLoad cpuLoads) ^ 2).sum / cpuLoads.length

open Classical in
/-- Mirrors `_update_load_balance_index`: the value written to
`load_balancing_metrics.load_balance_index` given the list of per-node CPU
loads.  Empty or all-zero loads and a zero mean give 1.0; otherwise the
index is `max(0, 1 - min(1, sqrt(variance) / mean))`. -/
noncomputable def updateLoadBalanceIndex (cpuLoads : List ℝ) : ℝ :=
  if cpuLoads = [] ∨ ∀ load ∈ cpuLoads, load = 0 then 1
  else if meanLoad cpuLoads = 0 then 1
  else max 0 (1 - min 1 (Real.sqrt (loadVariance cpuLoads) / meanLoad cpuLoads))

open Classical in
/-- Modelled from the spec glossary: the coefficient of variation of the
CPU loads, standard deviation divided by the mean (taken as 0 when the
mean is 0, the only convention under which the all-equal case is covered). -/
noncomputable def coefficientOfVariation (cpuLoads : List ℝ) : ℝ :=
  if meanLoad cpuLoads = 0 then 0
  else Real.sqrt (loadVariance cpuLoads) / meanLoad cpuLoads

lemma meanLoad_of_all_zero {l : List ℝ} (h : ∀ x ∈ l, x = 0) : meanLoad l = 0 := by
  unfold meanLoad
  rw [List.sum_eq_zero h]
  simp

lemma meanLoad_nonneg {l : List ℝ} (h : ∀ x ∈ l, 0 ≤ x) : 0 ≤ meanLoad l := by
  unfold meanLoad
  apply div_nonneg (List.sum_nonneg h)
  positivity

lemma loadVariance_nonneg (l : List ℝ) : 0 ≤ loadVariance l := by
  unfold loadVariance
  apply div_nonneg
  · apply List.sum_nonneg
    intro x hx
    rcases List.mem_map.mp hx with ⟨y, _, rfl⟩
    positivity
  · positivity

lemma coefficientOfVariation_nonneg {l : List ℝ} (h : ∀ x ∈ l, 0 ≤ x) :
    0 ≤ coefficientOfVariation l := by
  unfold coefficientOfVariation
  split_ifs with hm
  · exact le_refl 0
  · rcases lt_or_eq_of_le (meanLoad_nonneg h) with hp | hp
    · exact div_nonneg (Real.sqrt_nonneg _) hp.le
    · exact absurd hp.symm hm

/-- Claim C6: the recomputed load-balance index equals
`1 - min(1, coefficientOfVariation(cpuLoads))`; it lies in `[0, 1]` for
nonnegative loads; it is exactly 1 for every uniform load vector
(including all-zero); and it is strictly below 1 for every non-uniform
vector with positive mean. -/
theorem loadBalanceIndex_spec :
    (∀ l : List ℝ, updateLoadBalanceIndex l = 1 - min 1 (coefficientOfVariation l)) ∧
    (∀ l : List ℝ, (∀ x ∈ l, 0 ≤ x) →
      0 ≤ updateLoadBalanceIndex l ∧ updateLoadBalanceIndex l ≤ 1) ∧
    (∀ (l : List ℝ) (c : ℝ), (∀ x ∈ l, x = c) → updateLoadBalanceIndex l = 1) ∧
    (∀ l : List ℝ, 0 < meanLoad l → (∃ a ∈ l, ∃ b ∈ l, a ≠ b) →
      updateLoadBalanceIndex l < 1) := by
  have hmain : ∀ l : List ℝ,
      updateLoadBalanceIndex l = 1 - min 1 (coefficientOfVariation l) := by
    intro l
    unfold updateLoadBalanceIndex coefficientOfVariation
    split_ifs with h0 hm1 hm2
    · simp
    · rcases h0 with h | h
      · rw [h] at hm1
        simp [meanLoad] at hm1
      · exact absurd (meanLoad_of_all_zero h) hm1
    · simp
    · have hle : min 1 (Real.sqrt (loadVariance l) / meanLoad l) ≤ 1 := min_le_left _ _
      rw [max_eq_right (by linarith)]
  refine ⟨hmain, ?_, ?_, ?_⟩
  · intro l h
    rw [hmain l]
    have hcv : 0 ≤ coefficientOfVariation l := coefficientOfVariation_nonneg h
    constructor
    · have : min 1 (coefficientOfVariation l) ≤ 1 := min_le_left _ _
      linarith
    · have : 0 ≤ min 1 (coefficientOfVariation l) := le_min (by norm_num) hcv
      linarith
  · intro l c hc
    by_cases hl : l = []
    · unfold updateLoadBalanceIndex
      rw [if_pos (Or.inl hl)]
    · by_cases hcz : c = 0
      · have hz : ∀ x ∈ l, x = 0 := by
          intro x hx
          rw [hc x hx, hcz]
        unfold updateLoadBalanceIndex
        rw [if_pos (Or.inr hz)]
      · rw [hmain l]
        have hlen : (0 : ℝ) < l.length := by
          have := List.length_pos.mpr hl
          exact_mod_cast this
        have hmean : meanLoad l = c := by
          unfold meanLoad
          rw [List.sum_eq_card_nsmul l c hc]
          field_simp
        have hvar : loadVariance l = 0 := by
          unfold loadVariance
          have : ∀ x ∈ (l.map fun load => (load - meanLoad l) ^ 2), x = 0 := by
            intro x hx
            rcases List.mem_map.mp hx with ⟨y, hy, rfl⟩
            rw [hc y hy, hmean]
            ring
          rw [List.sum_eq_zero this]
          simp
        have : coefficientOfVariation l = 0 := by
          unfold coefficientOfVariation
          split_ifs with hm
          · rfl
          · rw [hvar, Real.sqrt_zero, zero_div]
        rw [this]
        norm_num
  · intro l hmean hab
    rw [hmain l]
    have hne : l ≠ [] := by
      intro h
      rw [h] at hmean
      simp [meanLoad] at hmean
    have hlen : (0 : ℝ) < l.length := by
      have := List.length_pos.mpr hne
      exact_mod_cast this
    have hx : ∃ x ∈ l, x ≠ meanLoad l := by
      by_contra hall
      push_neg at hall
      rcases hab with ⟨a, ha, b, hb, hab⟩
      exact hab ((hall a ha).trans (hall b hb).symm)
    have hvarpos : 0 < loadVariance l := by
      rcases hx with ⟨x, hxl, hxne⟩
      unfold loadVariance
      apply div_pos
      · have hmem : (x - meanLoad l) ^ 2 ∈ (l.map fun load => (load - meanLoad l) ^ 2) :=
          List.mem_map.mpr ⟨x, hxl, rfl⟩
        have hnn : ∀ y ∈ (l.map fun load => (load - meanLoad l) ^ 2), 0 ≤ y := by
          intro y hy
          rcases List.mem_map.mp hy with ⟨z, _, rfl⟩
          positivity
        calc (0 : ℝ) < (x - meanLoad l) ^ 2 := by
              have : x - meanLoad l ≠ 0 := sub_ne_zero_of_ne hxne
              positivity
          _ ≤ (l.map fun load => (load - meanLoad l) ^ 2).sum :=
              List.single_le_sum hnn _ hmem
      · exact hlen
    have hcv : 0 < coefficientOfVariation l := by
      unfold coefficientOfVariation
      rw [if_neg (ne_of_gt hmean)]
      exact div_pos (Real.sqrt_pos.mpr hvarpos) hmean
    have : 0 < min 1 (coefficientOfVariation l) := lt_min (by norm_num) hcv
    linarith

/-- Witness for C6 at the concrete loads `[1, 2]`: positive mean and a
non-uniform pair, so the index is strictly below 1; and at the uniform
all-zero vector `[0, 0]` the index is exactly 1. -/
theorem loadBalanceIndex_spec_witness :
    updateLoadBalanceIndex [(1 : ℝ), 2] < 1 ∧
    updateLoadBalanceIndex [(0 : ℝ), 0] = 1 := by
  constructor
  · apply loadBalanceIndex_spec.2.2.2 [(1 : ℝ), 2]
    · show (0 : ℝ) < ([(1 : ℝ), 2].sum / [(1 : ℝ), 2].length)
      norm_num
    · exact ⟨1, by norm_num, 2, by norm_num, by norm_num⟩
  · exact loadBalanceIndex_spec.2.2.1 [(0 : ℝ), 0] 0 (by norm_num)

/-! ## FailureInjector (failure_injection.py) -/

/-- Mirrors `FailureProfile` dataclass: per-node failure characteristics. -/
structure FailureProfile where
  nodeId : NodeId
  failureType : FailureType
  baseFailureRate : ℚ
  meanDuration : ℚ
  severityMin : ℚ
  severityMax : ℚ
deriving DecidableEq, Repr

/-- The `failure_profiles` table from `FailureInjector.__init__`. -/
def failureProfiles : NodeId → FailureProfile
  | NodeId.EDGE1 =>
    { nodeId := NodeId.EDGE1, failureType := FailureType.CRASH,
      baseFailureRate := 0.1, meanDuration := 30, severityMin := 0.8, severityMax := 1 }
  | NodeId.EDGE2 =>
    { nodeId := NodeId.EDGE2, failureType := FailureType.OMISSION,
      baseFailureRate := 0.15, meanDuration := 45, severityMin := 0.3, severityMax := 0.7 }
  | NodeId.CORE1 =>
    { nodeId := NodeId.CORE1, failureType := FailureType.BYZANTINE,
      baseFailureRate := 0.05, meanDuration := 120, severityMin := 0.9, severityMax := 1 }
  | NodeId.CORE2 =>
    { nodeId := NodeId.CORE2, failureType := FailureType.CRASH,
      baseFailureRate := 0.08, meanDuration := 25, severityMin := 0.7, severityMax := 0.9 }
  | NodeId.CLOUD1 =>
    { nodeId := NodeId.CLOUD1, failureType := FailureType.OMISSION,
      baseFailureRate := 0.12, meanDuration := 60, severityMin := 0.4, severityMax := 0.8 }

/-- Mirrors `_get_dependent_nodes` (failure_injection.py lines 211-222): the static
dependency table.  Core failures affect the edge nodes, the cloud node
affects the core nodes, edge failures never cascade. -/
def getDependentNodes : NodeId → List NodeId
  | NodeId.CORE1 => [NodeId.EDGE1, NodeId.EDGE2]
  | NodeId.CORE2 => [NodeId.EDGE1, NodeId.EDGE2]
  | NodeId.CLOUD1 => [NodeId.CORE1, NodeId.CORE2]
  | NodeId.EDGE1 => []
  | NodeId.EDGE2 => []

/-- Mirrors `_evaluate_cascading_failures` (failure_injection.py lines 184-209).
The two random draws are passed in explicitly: `cascadeDraw i` is the
outcome of the 20%-chance `random.random() < cascading_failure_probability`
test for the `i`-th trigger, and `delayDraw i j` is the
`random.uniform(5.0, 30.0)` sample used for the `j`-th dependent of the
`i`-th trigger.  A cascading failure is created for every dependent of a
cascading trigger that is neither already failed nor among the nodes that
failed this tick, with start delayed by the drawn amount, duration scaled
by 0.7 and severity scaled by 0.6. -/
def evaluateCascadingFailures (cascadeDraw : ℕ → Bool) (delayDraw : ℕ → ℕ → ℚ)
    (initialFailures : List FailureScenario) (now : ℚ)
    (stateFailedNodes : Finset NodeId) : List FailureScenario :=
  initialFailures.enum.flatMap fun (i, f) =>
    if cascadeDraw i then
      (getDependentNodes f.nodeId).enum.filterMap fun (j, dep) =>
        if dep ∉ stateFailedNodes ∧ dep ∉ initialFailures.map (·.nodeId) then
          some { nodeId := dep
                 failureType := (failureProfiles dep).failureType
                 startTime := now + delayDraw i j
                 duration := f.duration * 0.7
                 severity := f.severity * 0.6
                 recoveryTime := none }
        else none
    else []

lemma getDependentNodes_ne_self :
    ∀ n d : NodeId, d ∈ getDependentNodes n → d ≠ n := by
  decide

/-- Claim C7: every cascading failure produced from a tick whose triggers
all start at `now` (as the ones built by `inject_failures` do) and carry
positive severity and duration targets a node from the static dependency
table of some trigger, never the trigger node itself, starts between 5 and
30 seconds after the trigger, and has strictly lower severity (scaled by
0.6) and strictly lower duration (scaled by 0.7) than its trigger. -/
theorem cascading_failures_follow_dependency_table
    (cascadeDraw : ℕ → Bool) (delayDraw : ℕ → ℕ → ℚ)
    (initialFailures : List FailureScenario) (now : ℚ)
    (stateFailedNodes : Finset NodeId)
    (hstart : ∀ f ∈ initialFailures, f.startTime = now ∧ 0 < f.severity ∧ 0 < f.duration)
    (hdelay : ∀ i j, 5 ≤ delayDraw i j ∧ delayDraw i j ≤ 30) :
    ∀ cf ∈ evaluateCascadingFailures cascadeDraw delayDraw initialFailures now stateFailedNodes,
      ∃ f ∈ initialFailures,
        cf.nodeId ∈ getDependentNodes f.nodeId ∧
        cf.nodeId ≠ f.nodeId ∧
        f.startTime + 5 ≤ cf.startTime ∧
        cf.startTime ≤ f.startTime + 30 ∧
        cf.severity = f.severity * 0.6 ∧
        cf.severity < f.severity ∧
        cf.duration = f.duration * 0.7 ∧
        cf.duration < f.duration := by
  intro cf hcf
  unfold evaluateCascadingFailures at hcf
  rcases List.mem_flatMap.mp hcf with ⟨⟨i, f⟩, hif, hmem⟩
  have hf : f ∈ initialFailures := by
    have h := List.mk_mem_enum_iff_getElem?.mp hif
    exact List.getElem?_mem h
  dsimp only at hmem
  by_cases hdraw : cascadeDraw i
  · rw [if_pos hdraw] at hmem
    rcases List.mem_filterMap.mp hmem with ⟨⟨j, dep⟩, hjd, hsome⟩
    by_cases hcond : dep ∉ stateFailedNodes ∧ dep ∉ initialFailures.map (·.nodeId)
    · rw [if_pos hcond] at hsome
      have hcf_eq := Option.some.inj hsome
      have hdep : dep ∈ getDependentNodes f.nodeId := by
        have h := List.mk_mem_enum_iff_getElem?.mp hjd
        exact List.getElem?_mem h
      obtain ⟨hfs, hfsev, hfdur⟩ := hstart f hf
      have hsev : cf.severity = f.severity * 0.6 := by rw [← hcf_eq]
      have hdur : cf.duration = f.duration * 0.7 := by rw [← hcf_eq]
      have hst : cf.startTime = now + delayDraw i j := by rw [← hcf_eq]
      have hnode : cf.nodeId = dep := by rw [← hcf_eq]
      refine ⟨f, hf, ?_, ?_, ?_, ?_, hsev, ?_, hdur, ?_⟩
      · rw [hnode]
        exact hdep
      · rw [hnode]
        exact getDependentNodes_ne_self f.nodeId dep hdep
      · rw [hst, hfs]
        have := (hdelay i j).1
        linarith
      · rw [hst, hfs]
        have := (hdelay i j).2
        linarith
      · rw [hsev]
        nlinarith
      · rw [hdur]
        nlinarith
    · rw [if_neg hcond] at hsome
      exact absurd hsome (by simp)
  · rw [if_neg hdraw] at hmem
    simp at hmem

/-- The trigger list of the C7 witness tick: CORE1 fails at time 100 with
severity 0.9 and duration 120. -/
def c7Trigger : FailureScenario :=
  { nodeId := NodeId.CORE1, failureType := FailureType.BYZANTINE,
    startTime := 100, duration := 120, severity := 0.9, recoveryTime := none }

/-- The first cascading failure created from the C7 witness tick: the
EDGE1 dependent, delayed by 10, with scaled duration and severity. -/
def c7Expected : FailureScenario :=
  { nodeId := NodeId.EDGE1, failureType := FailureType.CRASH,
    startTime := 110, duration := 84, severity := 0.54, recoveryTime := none }

/-- Witness for C7 on a concrete tick: the cascade draw fires for the
CORE1 trigger, the delay draw is 10, and the produced cascading failure on
EDGE1 satisfies all claimed bounds. -/
theorem cascading_failures_witness :
    ∃ f ∈ [c7Trigger],
      c7Expected.nodeId ∈ getDependentNodes f.nodeId ∧
      c7Expected.nodeId ≠ f.nodeId ∧
      f.startTime + 5 ≤ c7Expected.startTime ∧
      c7Expected.startTime ≤ f.startTime + 30 ∧
      c7Expected.severity = f.severity * 0.6 ∧
      c7Expected.severity < f.severity ∧
      c7Expected.duration = f.duration * 0.7 ∧
      c7Expected.duration < f.duration := by
  apply cascading_failures_follow_dependency_table (fun _ => true) (fun _ _ => 10)
    [c7Trigger] 100 ∅ ?_ ?_ c7Expected ?_
  · intro f hfm
    refine ⟨?_, ?_, ?_⟩
    · simp at hfm
      rw [hfm]
      rfl
    · simp at hfm
      rw [hfm]
      norm_num [c7Trigger]
    · simp at hfm
      rw [hfm]
      norm_num [c7Trigger]
  · intro i j
    norm_num
  · with_unfolding_all decide

/-! ## Replication groups (redundancy_failover.py lines 178-252 and 432-446) -/

/-- The `.value` string of a node id. -/
def nodeIdValue : NodeId → String
  | NodeId.EDGE1 => "EDGE1"
  | NodeId.EDGE2 => "EDGE2"
  | NodeId.CORE1 => "CORE1"
  | NodeId.CORE2 => "CORE2"
  | NodeId.CLOUD1 => "CLOUD1"

/-- Mirrors `ReplicationGroup` dataclass. -/
structure ReplicationGroup where
  groupId : String
  primaryNode : NodeId
  replicaNodes : Finset NodeId
  strategy : RedundancyStrategy
  replicationFactor : ℕ
  consistencyLevel : String
deriving DecidableEq

/-- The `node_failure_types` table used by `_select_replica_nodes` (and
repeated in `simulate_multi_node_failure`). -/
def nodeFailureTypes : NodeId → FailureType
  | NodeId.EDGE1 => FailureType.CRASH
  | NodeId.EDGE2 => FailureType.OMISSION
  | NodeId.CORE1 => FailureType.BYZANTINE
  | NodeId.CORE2 => FailureType.CRASH
  | NodeId.CLOUD1 => FailureType.OMISSION

/-- The candidate list built by `_select_replica_nodes` (redundancy_failover.py
lines 222-252): nodes other than the primary with a different failure type,
extended with the remaining non-primary nodes when there are fewer than
`count` of them.  The final `random.sample` is modelled by quantifying over
any chosen subset of the right size. -/
def selectReplicaCandidates (primaryNode : NodeId) (primaryFailureType : FailureType)
    (count : ℕ) : List NodeId :=
  let candidates := allNodesList.filter
    fun n => n ≠ primaryNode ∧ nodeFailureTypes n ≠ primaryFailureType
  if candidates.length < count then
    candidates ++ allNodesList.filter (fun n => n ≠ primaryNode ∧ n ∉ candidates)
  else
    candidates

/-- The replication factor chosen by `_create_replication_group_for_node`:
3 at critical risk, 2 at high risk, 1 otherwise. -/
def replicationFactorFor (riskScore : ℚ) : ℕ :=
  if criticalRiskThreshold ≤ riskScore then 3
  else if highRiskThreshold ≤ riskScore then 2
  else 1

/-- The consistency level chosen by `_create_replication_group_for_node`. -/
def consistencyLevelFor (ft : FailureType) : String :=
  if ft = FailureType.BYZANTINE then "strong"
  else if ft = FailureType.OMISSION then "causal"
  else "eventual"

/-- Mirrors `_create_replication_group_for_node` given the outcome `selected` of
the `random.sample` call. -/
def createReplicationGroupForNode (risk : RiskAssessment)
    (strategy : RedundancyStrategy) (selected : Finset NodeId) : ReplicationGroup :=
  { groupId := "replication_group_" ++ nodeIdValue risk.nodeId
    primaryNode := risk.nodeId
    replicaNodes := selected
    strategy := strategy
    replicationFactor := replicationFactorFor risk.riskScore
    consistencyLevel := consistencyLevelFor risk.failureType }

/-- Mirrors `_update_replication_group_after_failover` (redundancy_failover.py
lines 432-446): on a primary failure the failover node is promoted, leaves
the replica set, and the failed node joins it; otherwise nothing changes. -/
def updateReplicationGroupAfterFailover (g : ReplicationGroup)
    (failedNode failoverNode : NodeId) : ReplicationGroup :=
  if failedNode = g.primaryNode then
    { g with
        primaryNode := failoverNode
        replicaNodes := insert failedNode (g.replicaNodes.erase failoverNode) }
  else g

lemma primary_not_mem_selectReplicaCandidates (p : NodeId) (t : FailureType) (c : ℕ) :
    p ∉ selectReplicaCandidates p t c := by
  intro hmem
  unfold selectReplicaCandidates at hmem
  dsimp only at hmem
  split_ifs at hmem with h
  · rcases List.mem_append.mp hmem with h1 | h1
    · have hh := (List.mem_filter.mp h1).2
      simp at hh
    · have hh := (List.mem_filter.mp h1).2
      simp at hh
  · have hh := (List.mem_filter.mp hmem).2
    simp at hh

lemma selectReplicaCandidates_length3 (p : NodeId) (t : FailureType) :
    3 ≤ (selectReplicaCandidates p t 3).length := by
  revert p t
  with_unfolding_all decide

/-- Claim C8: a replication group created from a risk assessment (for any
outcome of the replica sampling of the right size) never lists its own
primary among the replicas, and at critical risk (score at or above 0.85)
the replication factor is at least 2 and at least two replica nodes are
chosen; moreover a successful failover promotion preserves the
primary-not-replica invariant. -/
theorem replication_group_invariants
    (risk : RiskAssessment) (strategy : RedundancyStrategy) (selected : Finset NodeId)
    (hsub : ∀ n ∈ selected,
      n ∈ selectReplicaCandidates risk.nodeId risk.failureType
        (replicationFactorFor risk.riskScore))
    (hcard : selected.card = min (replicationFactorFor risk.riskScore)
      (selectReplicaCandidates risk.nodeId risk.failureType
        (replicationFactorFor risk.riskScore)).length) :
    (createReplicationGroupForNode risk strategy selected).primaryNode ∉
      (createReplicationGroupForNode risk strategy selected).replicaNodes ∧
    (criticalRiskThreshold ≤ risk.riskScore →
      2 ≤ (createReplicationGroupForNode risk strategy selected).replicationFactor ∧
      2 ≤ (createReplicationGroupForNode risk strategy selected).replicaNodes.card) ∧
    (∀ (g : ReplicationGroup) (failedNode failoverNode : NodeId),
      g.primaryNode ∉ g.replicaNodes → failoverNode ∈ g.replicaNodes →
      (updateReplicationGroupAfterFailover g failedNode failoverNode).primaryNode ∉
        (updateReplicationGroupAfterFailover g failedNode failoverNode).replicaNodes) := by
  refine ⟨?_, ?_, ?_⟩
  · intro hmem
    exact primary_not_mem_selectReplicaCandidates risk.nodeId risk.failureType
      (replicationFactorFor risk.riskScore) (hsub _ hmem)
  · intro hcrit
    have hfac : replicationFactorFor risk.riskScore = 3 := by
      unfold replicationFactorFor
      rw [if_pos hcrit]
    constructor
    · show 2 ≤ replicationFactorFor risk.riskScore
      rw [hfac]
      norm_num
    · show 2 ≤ selected.card
      rw [hcard, hfac]
      have := selectReplicaCandidates_length3 risk.nodeId risk.failureType
      omega
  · intro g failedNode failoverNode hprim hrep
    unfold updateReplicationGroupAfterFailover
    split_ifs with heq
    · intro hmem
      simp only [Finset.mem_insert, Finset.mem_erase] at hmem
      rcases hmem with h | h
      · rw [heq] at h
        rw [h] at hrep
        exact hprim hrep
      · exact h.1 rfl
    · exact hprim

/-- Witness for C8 at the 0.90-risk Byzantine assessment with the sampled
replica set `{EDGE1, EDGE2, CORE2}`. -/
theorem replication_group_invariants_witness :
    (createReplicationGroupForNode byzantineRisk090
      (selectRedundancyStrategy byzantineRisk090)
      {NodeId.EDGE1, NodeId.EDGE2, NodeId.CORE2}).primaryNode ∉
      (createReplicationGroupForNode byzantineRisk090
        (selectRedundancyStrategy byzantineRisk090)
        {NodeId.EDGE1, NodeId.EDGE2, NodeId.CORE2}).replicaNodes ∧
    2 ≤ (createReplicationGroupForNode byzantineRisk090
      (selectRedundancyStrategy byzantineRisk090)
      {NodeId.EDGE1, NodeId.EDGE2, NodeId.CORE2}).replicaNodes.card := by
  have h := replication_group_invariants byzantineRisk090
    (selectRedundancyStrategy byzantineRisk090)
    {NodeId.EDGE1, NodeId.EDGE2, NodeId.CORE2}
    (by with_unfolding_all decide) (by with_unfolding_all decide)
  exact ⟨h.1, (h.2.1 (by with_unfolding_all decide)).2⟩

/-! ## Automated failover (redundancy_failover.py lines 254-446) -/

/-- Mirrors `FailoverEvent` dataclass. -/
structure FailoverEvent where
  eventId : String
  failedNode : NodeId
  failoverNode : NodeId
  failoverMode : FailoverMode
  startTime : ℚ
  completionTime : Option ℚ := none
  success : Bool := true
  servicesMigrated : List String := []
  downtimeSeconds : ℚ := 0
  reason : String := ""
deriving DecidableEq

/-- The failover-relevant state of `RedundancyFailoverManager`: the
replication-group dict (insertion-ordered key/value list) and the
append-only failover history. -/
structure RedundancyManager where
  replicationGroups : List (String × ReplicationGroup)
  failoverHistory : List FailoverEvent
deriving DecidableEq

/-- Mirrors `_find_replication_group_for_node`: first group (in dict order) whose
primary or replica set contains the node. -/
def findReplicationGroupForNode (mgr : RedundancyManager) (nodeId : NodeId) :
    Option ReplicationGroup :=
  (mgr.replicationGroups.find?
    (fun p => nodeId = p.2.primaryNode ∨ nodeId ∈ p.2.replicaNodes)).map Prod.snd

/-- Mirrors `_calculate_failover_target_score` (redundancy_failover.py lines
367-387): fixed-denominator capacity and performance scores. -/
def calculateFailoverTargetScore (st : SimulationState) (nodeId : NodeId) : ℚ :=
  let metrics := st.nodeMetrics nodeId
  let cpuScore := 1 - metrics.cpuUtilization / 72
  let memoryScore := 1 - metrics.memoryUsage / 16
  let latencyScore := 1 - metrics.latency / 22
  let throughputScore := metrics.throughput / 1250
  cpuScore * 0.3 + memoryScore * 0.3 + latencyScore * 0.2 + throughputScore * 0.2

/-- Mirrors `_select_failover_target`: the non-failed replicas (the Python set is
walked in the canonical node order) scored with
`_calculate_failover_target_score`; the first strictly-best one wins, and
`none` is returned when no replica is available. -/
def selectFailoverTarget (failedNode : NodeId) (g : ReplicationGroup)
    (st : SimulationState) : Option NodeId :=
  let available := allNodesList.filter
    fun n => n ∈ g.replicaNodes ∧ n ∉ st.failedNodes
  available.foldl
    (fun best n =>
      match best with
      | none => some n
      | some b =>
        if calculateFailoverTargetScore st b < calculateFailoverTargetScore st n then
          some n
        else best)
    none

/-- Mirrors `_migrate_services_during_failover` (redundancy_failover.py lines
417-430): every allocation on the failed node is rewritten to the failover
node. -/
def migrateServicesDuringFailover (failedNode failoverNode : NodeId)
    (allocations : List (String × NodeId)) : List (String × NodeId) :=
  allocations.map fun p => if p.2 = failedNode then (p.1, failoverNode) else p

/-- The in-place mutation of the found group inside the manager dict:
the first group containing the failed node is replaced by its
post-failover version, everything else is untouched. -/
def updateFirstGroup (failedNode failoverNode : NodeId) :
    List (String × ReplicationGroup) → List (String × ReplicationGroup)
  | [] => []
  | p :: rest =>
    if failedNode = p.2.primaryNode ∨ failedNode ∈ p.2.replicaNodes then
      (p.1, updateReplicationGroupAfterFailover p.2 failedNode failoverNode) :: rest
    else
      p :: updateFirstGroup failedNode failoverNode rest

/-- Mirrors `implement_automated_failover` (redundancy_failover.py lines 254-332).
The `random.random() < success_rate` draw of `_execute_failover` is the
`successDraw` parameter and its strategy-dependent `random.uniform`
downtime is `downtime`.  Without a replication group or without an
available replica the call returns `None` and leaves everything unchanged.
Otherwise the failover event is recorded (with the drawn success flag and
`completion_time = now + downtime`), the services of the failed node are
reassigned to the target, and the group is updated only on success.
The numeric suffix that Python appends to the event id is elided. -/
def implementAutomatedFailover (mgr : RedundancyManager) (failedNode : NodeId)
    (st : SimulationState) (now : ℚ) (mode : FailoverMode)
    (successDraw : Bool) (downtime : ℚ) :
    Option FailoverEvent × RedundancyManager × SimulationState :=
  match findReplicationGroupForNode mgr failedNode with
  | none => (none, mgr, st)
  | some g =>
    match selectFailoverTarget failedNode g st with
    | none => (none, mgr, st)
    | some failoverNode =>
      let servicesMigrated :=
        (st.serviceAllocations.filter (fun p => p.2 = failedNode)).map Prod.fst
      let newState := { st with
        serviceAllocations :=
          migrateServicesDuringFailover failedNode failoverNode st.serviceAllocations }
      let ev : FailoverEvent :=
        { eventId := "failover_" ++ nodeIdValue failedNode
          failedNode := failedNode
          failoverNode := failoverNode
          failoverMode := mode
          startTime := now
          completionTime := some (now + downtime)
          success := successDraw
          servicesMigrated := servicesMigrated
          downtimeSeconds := downtime
          reason := "Node " ++ nodeIdValue failedNode ++ " failure detected" }
      let newMgr := { mgr with
        replicationGroups :=
          if successDraw then
            updateFirstGroup failedNode failoverNode mgr.replicationGroups
          else
            mgr.replicationGroups
        failoverHistory := mgr.failoverHistory ++ [ev] }
      (some ev, newMgr, newState)

/-- The replication group of the C3 scenario: active-passive, primary
EDGE1, single replica EDGE2. -/
def c3Group : ReplicationGroup where
  groupId := "replication_group_EDGE1"
  primaryNode := NodeId.EDGE1
  replicaNodes := {NodeId.EDGE2}
  strategy := RedundancyStrategy.ACTIVE_PASSIVE
  replicationFactor := 2
  consistencyLevel := "eventual"

/-- The manager of the C3 scenario: just the group above. -/
def c3Manager : RedundancyManager where
  replicationGroups := [("replication_group_EDGE1", c3Group)]
  failoverHistory := []

/-- The state of the C3 scenario: one service allocated to EDGE1. -/
def c3State : SimulationState :=
  { initialSimulationState with serviceAllocations := [("s1", NodeId.EDGE1)] }

/-- The no-eligible-replica variant: the only replica EDGE2 is failed. -/
def c3StateReplicaDown : SimulationState :=
  { c3State with failedNodes := {NodeId.EDGE2} }

/-- Counterexample to claim C3 as stated.  First, with a failed success
draw the source still reassigns the failed node services to the failover
node (`_migrate_services_during_failover` runs before the success flag is
consulted), while the claim requires the allocations to stay unchanged.
Second, with no eligible replica the call returns `None` without recording
any unsuccessful `FailoverEvent`, while the claim requires one to be
recorded. -/
theorem failover_counterexample :
    ((implementAutomatedFailover c3Manager NodeId.EDGE1 c3State 100
        FailoverMode.AUTOMATIC false 5).1.map (fun ev => ev.success) = some false) ∧
    ((implementAutomatedFailover c3Manager NodeId.EDGE1 c3State 100
        FailoverMode.AUTOMATIC false 5).2.2.serviceAllocations = [("s1", NodeId.EDGE2)]) ∧
    ((implementAutomatedFailover c3Manager NodeId.EDGE1 c3StateReplicaDown 100
        FailoverMode.AUTOMATIC false 5).1 = none) ∧
    ((implementAutomatedFailover c3Manager NodeId.EDGE1 c3StateReplicaDown 100
        FailoverMode.AUTOMATIC false 5).2.1.failoverHistory = []) := by
  refine ⟨?_, ?_, ?_, ?_⟩ <;> with_unfolding_all decide

/-- Claim C3 (amended): when no replication group or no eligible replica
exists the call returns `None`, records no event, and leaves the manager
and the allocations unchanged; when a target is found, a `FailoverEvent`
carrying the drawn success flag is recorded and the failed node services
are reassigned to the target regardless of the draw, with the group
promotion applied only on success. -/
theorem failover_amended (mgr : RedundancyManager) (failedNode : NodeId)
    (st : SimulationState) (now : ℚ) (mode : FailoverMode)
    (successDraw : Bool) (downtime : ℚ) :
    (findReplicationGroupForNode mgr failedNode = none →
      implementAutomatedFailover mgr failedNode st now mode successDraw downtime =
        (none, mgr, st)) ∧
    (∀ g, findReplicationGroupForNode mgr failedNode = some g →
      selectFailoverTarget failedNode g st = none →
      implementAutomatedFailover mgr failedNode st now mode successDraw downtime =
        (none, mgr, st)) ∧
    (∀ g target, findReplicationGroupForNode mgr failedNode = some g →
      selectFailoverTarget failedNode g st = some target →
      ∃ ev,
        (implementAutomatedFailover mgr failedNode st now mode successDraw downtime).1 =
          some ev ∧
        ev.success = successDraw ∧
        ev.failedNode = failedNode ∧
        ev.failoverNode = target ∧
        (implementAutomatedFailover mgr failedNode st now mode successDraw downtime).2.1.failoverHistory =
          mgr.failoverHistory ++ [ev] ∧
        (implementAutomatedFailover mgr failedNode st now mode successDraw downtime).2.2.serviceAllocations =
          migrateServicesDuringFailover failedNode target st.serviceAllocations ∧
        (successDraw = false →
          (implementAutomatedFailover mgr failedNode st now mode successDraw downtime).2.1.replicationGroups =
            mgr.replicationGroups)) := by
  refine ⟨?_, ?_, ?_⟩
  · intro hnone
    simp only [implementAutomatedFailover, hnone]
  · intro g hg htarget
    simp only [implementAutomatedFailover, hg, htarget]
  · intro g target hg htarget
    simp only [implementAutomatedFailover, hg, htarget]
    refine ⟨_, rfl, rfl, rfl, rfl, rfl, trivial, ?_⟩
    intro hdraw
    subst hdraw
    rfl

/-- Witness for the amended C3 theorem on the concrete scenario: the group
is found, EDGE2 is selected, and with a failed draw the allocations still
move to EDGE2 while the replication groups stay unchanged. -/
theorem failover_amended_witness :
    ∃ ev,
      (implementAutomatedFailover c3Manager NodeId.EDGE1 c3State 100
        FailoverMode.AUTOMATIC false 5).1 = some ev ∧
      ev.success = false ∧
      ev.failedNode = NodeId.EDGE1 ∧
      ev.failoverNode = NodeId.EDGE2 ∧
      (implementAutomatedFailover c3Manager NodeId.EDGE1 c3State 100
        FailoverMode.AUTOMATIC false 5).2.1.failoverHistory =
        c3Manager.failoverHistory ++ [ev] ∧
      (implementAutomatedFailover c3Manager NodeId.EDGE1 c3State 100
        FailoverMode.AUTOMATIC false 5).2.2.serviceAllocations =
        migrateServicesDuringFailover NodeId.EDGE1 NodeId.EDGE2 c3State.serviceAllocations ∧
      (false = false →
        (implementAutomatedFailover c3Manager NodeId.EDGE1 c3State 100
          FailoverMode.AUTOMATIC false 5).2.1.replicationGroups =
          c3Manager.replicationGroups) := by
  exact (failover_amended c3Manager NodeId.EDGE1 c3State 100
    FailoverMode.AUTOMATIC false 5).2.2 c3Group NodeId.EDGE2
    (by with_unfolding_all decide) (by with_unfolding_all decide)

/-! ## Resource-aware admission (load_balancer_simulation.py lines 187-349) -/

/-- Mirrors `_initialize_node_weights` (load_balancer_simulation.py lines 71-88)
applied to the default baseline metrics: throughput/latency ratio scaled
by the per-node reliability factor. -/
def initializeNodeWeights (node : NodeId) : ℚ :=
  let metrics := defaultNodeBaselineMetrics node
  let baseWeight := (metrics.throughput / metrics.latency) / 100
  let reliabilityFactor : ℚ :=
    if node = NodeId.EDGE1 ∨ node = NodeId.CORE2 then 0.9
    else if node = NodeId.EDGE2 ∨ node = NodeId.CLOUD1 then 0.8
    else 0.7
  baseWeight * reliabilityFactor

/-- Mirrors `_can_accommodate_request` (lines 286-297): the request fits under the
baseline capacity on all three dimensions. -/
def canAccommodateRequest (st : SimulationState) (node : NodeId)
    (req : ServiceRequest) : Prop :=
  st.loadBalancingMetrics.cpuDistribution node + req.cpuRequirement ≤
    (st.nodeMetrics node).cpuUtilization ∧
  st.loadBalancingMetrics.memoryDistribution node + req.memoryRequirement ≤
    (st.nodeMetrics node).memoryUsage ∧
  st.loadBalancingMetrics.transactionDistribution node + req.transactionLoad ≤
    (st.nodeMetrics node).transactionsPerSec

instance (st : SimulationState) (node : NodeId) (req : ServiceRequest) :
    Decidable (canAccommodateRequest st node req) := by
  unfold canAccommodateRequest
  infer_instance

/-- Mirrors `_calculate_node_score` (lines 299-322). -/
def calculateNodeScore (weights : NodeId → ℚ) (st : SimulationState)
    (node : NodeId) (req : ServiceRequest) : ℚ :=
  let metrics := st.nodeMetrics node
  let weight := weights node
  let cpuUtilization :=
    if 0 < metrics.cpuUtilization then
      st.loadBalancingMetrics.cpuDistribution node / metrics.cpuUtilization
    else 0
  let memoryUtilization :=
    if 0 < metrics.memoryUsage then
      st.loadBalancingMetrics.memoryDistribution node / metrics.memoryUsage
    else 0
  let transactionUtilization :=
    if 0 < metrics.transactionsPerSec then
      st.loadBalancingMetrics.transactionDistribution node / metrics.transactionsPerSec
    else 0
  let capacityScore := (1 - cpuUtilization) * 0.4 + (1 - memoryUtilization) * 0.3 +
    (1 - transactionUtilization) * 0.3
  let performanceScore := weight * (1 / metrics.latency) * (metrics.throughput / 1000)
  let priorityBonus := req.priority / 10
  capacityScore * 0.6 + performanceScore * 0.3 + priorityBonus * 0.1

/-- The accumulation loop of `_select_node_resource_aware` (lines 268-279):
among the available nodes that can accommodate the request, the running
best node and score, replaced only on a strictly greater score. -/
def selectAccommodatingBest (weights : NodeId → ℚ) (st : SimulationState)
    (req : ServiceRequest) (availableNodes : List NodeId) : Option (NodeId × ℚ) :=
  availableNodes.foldl
    (fun best node =>
      if canAccommodateRequest st node req then
        match best with
        | none => some (node, calculateNodeScore weights st node req)
        | some (b, bs) =>
          if bs < calculateNodeScore weights st node req then
            some (node, calculateNodeScore weights st node req)
          else some (b, bs)
      else best)
    none

/-- The summed utilization used by `_find_least_loaded_node` (lines 324-330). -/
def summedLoad (st : SimulationState) (node : NodeId) : ℚ :=
  st.loadBalancingMetrics.cpuDistribution node +
  st.loadBalancingMetrics.memoryDistribution node +
  st.loadBalancingMetrics.transactionDistribution node

/-- Mirrors `_find_least_loaded_node`: Python `min` keeps the earliest node with
the minimal summed utilization. -/
def findLeastLoadedNode (st : SimulationState) (availableNodes : List NodeId) :
    Option NodeId :=
  availableNodes.foldl
    (fun best node =>
      match best with
      | none => some node
      | some b => if summedLoad st node < summedLoad st b then some node else some b)
    none

/-- Mirrors `_select_node_resource_aware`: the best accommodating node, or the
least-loaded fallback when no node can fully accommodate. -/
def selectNodeResourceAware (weights : NodeId → ℚ) (st : SimulationState)
    (req : ServiceRequest) (availableNodes : List NodeId) : Option NodeId :=
  match selectAccommodatingBest weights st req availableNodes with
  | some (b, _) => some b
  | none => findLeastLoadedNode st availableNodes

/-- Mirrors `_select_node_for_request` under the default RESOURCE_AWARE strategy:
`None` when no node is available, otherwise the resource-aware choice.
The available list stands for `list(active_nodes - failed_nodes)`. -/
def selectNodeForRequest (weights : NodeId → ℚ) (st : SimulationState)
    (req : ServiceRequest) (availableNodes : List NodeId) : Option NodeId :=
  if availableNodes.isEmpty then none
  else selectNodeResourceAware weights st req availableNodes

/-- Mirrors `_update_node_load` (lines 342-349): the request requirements are added
to the chosen node distributions and the service counter is bumped. -/
def updateNodeLoad (st : SimulationState) (node : NodeId) (req : ServiceRequest)
    (now : ℚ) : SimulationState :=
  { st with
      loadBalancingMetrics := { st.loadBalancingMetrics with
        cpuDistribution := fun n =>
          if n = node then st.loadBalancingMetrics.cpuDistribution n + req.cpuRequirement
          else st.loadBalancingMetrics.cpuDistribution n
        memoryDistribution := fun n =>
          if n = node then st.loadBalancingMetrics.memoryDistribution n + req.memoryRequirement
          else st.loadBalancingMetrics.memoryDistribution n
        transactionDistribution := fun n =>
          if n = node then st.loadBalancingMetrics.transactionDistribution n + req.transactionLoad
          else st.loadBalancingMetrics.transactionDistribution n
        totalServices := st.loadBalancingMetrics.totalServices + 1
        lastUpdateTimestamp := now } }

/-- Python dict assignment `service_allocations[k] = v`: overwrite the
existing entry or append a new one. -/
def allocSet (l : List (String × NodeId)) (k : String) (v : NodeId) :
    List (String × NodeId) :=
  if l.any (fun p => p.1 = k) then
    l.map (fun p => if p.1 = k then (k, v) else p)
  else
    l ++ [(k, v)]

/-- Mirrors `_process_service_request` (lines 187-230) under the resource-aware
strategy, without the response-time bookkeeping: `none` models a rejected
request, `some (node, st)` a successful admission on `node` with the
updated state. -/
def processServiceRequest (weights : NodeId → ℚ) (st : SimulationState)
    (req : ServiceRequest) (availableNodes : List NodeId) (now : ℚ) :
    Option (NodeId × SimulationState) :=
  match selectNodeForRequest weights st req availableNodes with
  | none => none
  | some node =>
    if node ∈ st.failedNodes then none
    else
      let st1 := updateNodeLoad st node req now
      let st2 := { st1 with
        serviceAllocations := allocSet st1.serviceAllocations req.serviceId node }
      some (node, st2)

/-- The C1 counterexample request: it exceeds every baseline capacity on
every dimension, so no node can accommodate it. -/
def c1OversizedRequest : ServiceRequest :=
  { serviceId := "svc_big", cpuRequirement := 100, memoryRequirement := 20,
    transactionLoad := 400, priority := 5, timestamp := 0 }

/-- Counterexample to claim C1 as stated: from the initial state, the
oversized request exceeds every available node remaining capacity, yet it
is admitted (to EDGE1, the least-loaded fallback) and leaves EDGE1 with a
CPU load of 100 against a baseline capacity of 45. -/
theorem resource_aware_admission_counterexample :
    (∀ n ∈ allNodesList, ¬ canAccommodateRequest initialSimulationState n c1OversizedRequest) ∧
    ((processServiceRequest initializeNodeWeights initialSimulationState
        c1OversizedRequest allNodesList 0).map Prod.fst = some NodeId.EDGE1) ∧
    ((processServiceRequest initializeNodeWeights initialSimulationState
        c1OversizedRequest allNodesList 0).map
        (fun r => r.2.loadBalancingMetrics.cpuDistribution NodeId.EDGE1) = some 100) ∧
    (initialSimulationState.nodeMetrics NodeId.EDGE1).cpuUtilization < 100 := by
  refine ⟨?_, ?_, ?_, ?_⟩ <;> with_unfolding_all decide

lemma selectAccommodatingBest_spec (weights : NodeId → ℚ) (st : SimulationState)
    (req : ServiceRequest) (S : List NodeId) :
    ∀ (availableNodes : List NodeId) (acc : Option (NodeId × ℚ)),
      (∀ p, acc = some p → canAccommodateRequest st p.1 req ∧ p.1 ∈ S) →
      (∀ n ∈ availableNodes, n ∈ S) →
      ∀ p, availableNodes.foldl
        (fun best node =>
          if canAccommodateRequest st node req then
            match best with
            | none => some (node, calculateNodeScore weights st node req)
            | some (b, bs) =>
              if bs < calculateNodeScore weights st node req then
                some (node, calculateNodeScore weights st node req)
              else some (b, bs)
          else best) acc = some p →
        canAccommodateRequest st p.1 req ∧ p.1 ∈ S := by
  intro availableNodes
  induction availableNodes with
  | nil =>
    intro acc hacc _ p hp
    exact hacc p hp
  | cons n rest ih =>
    intro acc hacc hsub p hp
    simp only [List.foldl_cons] at hp
    have hnS : n ∈ S := hsub n (List.mem_cons_self n rest)
    apply ih _ ?_ (fun m hm => hsub m (List.mem_cons_of_mem n hm)) p hp
    intro q hq
    by_cases hcan : canAccommodateRequest st n req
    · rw [if_pos hcan] at hq
      match acc, hacc with
      | none, _ =>
        simp at hq
        rw [← hq]
        exact ⟨hcan, hnS⟩
      | some (b, bs), hacc =>
        dsimp only at hq
        by_cases hlt : bs < calculateNodeScore weights st n req
        · rw [if_pos hlt] at hq
          simp at hq
          rw [← hq]
          exact ⟨hcan, hnS⟩
        · rw [if_neg hlt] at hq
          have := hacc (b, bs) rfl
          simp at hq
          rw [← hq]
          exact this
    · rw [if_neg hcan] at hq
      exact hacc q hq

lemma findLeastLoadedNode_mem (st : SimulationState) (S : List NodeId) :
    ∀ (availableNodes : List NodeId) (acc : Option NodeId),
      (∀ b, acc = some b → b ∈ S) →
      (∀ n ∈ availableNodes, n ∈ S) →
      ∀ b, availableNodes.foldl
        (fun best node =>
          match best with
          | none => some node
          | some b => if summedLoad st node < summedLoad st b then some node else some b)
        acc = some b → b ∈ S := by
  intro availableNodes
  induction availableNodes with
  | nil =>
    intro acc hacc _ b hb
    exact hacc b hb
  | cons n rest ih =>
    intro acc hacc hsub b hb
    simp only [List.foldl_cons] at hb
    have hnS : n ∈ S := hsub n (List.mem_cons_self n rest)
    apply ih _ ?_ (fun m hm => hsub m (List.mem_cons_of_mem n hm)) b hb
    intro c hc
    match acc, hacc with
    | none, _ =>
      simp at hc
      rw [← hc]
      exact hnS
    | some a, hacc =>
      dsimp only at hc
      by_cases hlt : summedLoad st n < summedLoad st a
      · rw [if_pos hlt] at hc
        simp at hc
        rw [← hc]
        exact hnS
      · rw [if_neg hlt] at hc
        simp at hc
        rw [← hc]
        exact hacc a rfl

lemma selectAccommodatingBest_total (weights : NodeId → ℚ) (st : SimulationState)
    (req : ServiceRequest) :
    ∀ (availableNodes : List NodeId) (acc : Option (NodeId × ℚ)),
      (acc ≠ none ∨ ∃ n ∈ availableNodes, canAccommodateRequest st n req) →
      availableNodes.foldl
        (fun best node =>
          if canAccommodateRequest st node req then
            match best with
            | none => some (node, calculateNodeScore weights st node req)
            | some (b, bs) =>
              if bs < calculateNodeScore weights st node req then
                some (node, calculateNodeScore weights st node req)
              else some (b, bs)
          else best) acc ≠ none := by
  intro availableNodes
  induction availableNodes with
  | nil =>
    intro acc hacc
    rcases hacc with h | h
    · exact h
    · simp at h
  | cons n rest ih =>
    intro acc hacc
    simp only [List.foldl_cons]
    by_cases hcan : canAccommodateRequest st n req
    · rw [if_pos hcan]
      apply ih
      left
      match acc with
      | none => simp
      | some (b, bs) =>
        dsimp only
        by_cases hlt : bs < calculateNodeScore weights st n req
        · rw [if_pos hlt]; simp
        · rw [if_neg hlt]; simp
    · rw [if_neg hcan]
      apply ih
      rcases hacc with h | h
      · exact Or.inl h
      · rcases h with ⟨m, hm, hmc⟩
        rcases List.mem_cons.mp hm with rfl | hm'
        · exact absurd hmc hcan
        · exact Or.inr ⟨m, hm', hmc⟩

lemma findLeastLoadedNode_total (st : SimulationState) :
    ∀ (availableNodes : List NodeId), availableNodes ≠ [] →
      findLeastLoadedNode st availableNodes ≠ none := by
  intro availableNodes
  unfold findLeastLoadedNode
  have hgen : ∀ (l : List NodeId) (acc : Option NodeId), acc ≠ none →
      l.foldl (fun best node =>
        match best with
        | none => some node
        | some b => if summedLoad st node < summedLoad st b then some node else some b)
        acc ≠ none := by
    intro l
    induction l with
    | nil => intro acc h; exact h
    | cons n rest ih =>
      intro acc h
      simp only [List.foldl_cons]
      apply ih
      match acc with
      | none => exact absurd rfl h
      | some b =>
        dsimp only
        by_cases hlt : summedLoad st n < summedLoad st b
        · rw [if_pos hlt]; simp
        · rw [if_neg hlt]; simp
  intro hne
  match availableNodes, hne with
  | n :: rest, _ =>
    simp only [List.foldl_cons]
    exact hgen rest (some n) (by simp)

/-- Claim C1 (amended): when at least one available node can fully
accommodate the request, the resource-aware strategy admits it on an
accommodating node, and the post-admission utilization stays within the
baseline capacity on all three dimensions.  When no node can accommodate,
the request is nevertheless admitted (to the least-loaded fallback, as the
counterexample shows it may then exceed the baseline): admission never
fails while some non-failed node is available. -/
theorem resource_aware_admission_amended (weights : NodeId → ℚ)
    (st : SimulationState) (req : ServiceRequest) (availableNodes : List NodeId)
    (now : ℚ)
    (hav : ∀ n ∈ availableNodes, n ∉ st.failedNodes)
    (hne : availableNodes ≠ []) :
    ((∃ n ∈ availableNodes, canAccommodateRequest st n req) →
      ∃ node st2,
        processServiceRequest weights st req availableNodes now = some (node, st2) ∧
        canAccommodateRequest st node req ∧
        st2.loadBalancingMetrics.cpuDistribution node ≤ (st.nodeMetrics node).cpuUtilization ∧
        st2.loadBalancingMetrics.memoryDistribution node ≤ (st.nodeMetrics node).memoryUsage ∧
        st2.loadBalancingMetrics.transactionDistribution node ≤
          (st.nodeMetrics node).transactionsPerSec) ∧
    processServiceRequest weights st req availableNodes now ≠ none := by
  have hempty : availableNodes.isEmpty = false := by
    cases availableNodes with
    | nil => exact absurd rfl hne
    | cons a l => rfl
  have hexec : ∀ node, selectNodeForRequest weights st req availableNodes = some node →
      node ∈ availableNodes →
      processServiceRequest weights st req availableNodes now =
        some (node,
          { updateNodeLoad st node req now with
              serviceAllocations :=
                allocSet (updateNodeLoad st node req now).serviceAllocations
                  req.serviceId node }) := by
    intro node hsel hmem
    unfold processServiceRequest
    rw [hsel]
    dsimp only
    rw [if_neg (hav node hmem)]
  constructor
  · rintro ⟨n0, hn0, hcan0⟩
    have htot := selectAccommodatingBest_total weights st req availableNodes none
      (Or.inr ⟨n0, hn0, hcan0⟩)
    rcases hsb : selectAccommodatingBest weights st req availableNodes with _ | ⟨b, bs⟩
    · unfold selectAccommodatingBest at hsb
      exact absurd hsb htot
    · have hsb' := hsb
      unfold selectAccommodatingBest at hsb'
      have hspec := selectAccommodatingBest_spec weights st req availableNodes
        availableNodes none (by intro p hp; simp at hp) (fun n hn => hn) (b, bs) hsb'
      obtain ⟨hcanb, hmemb⟩ := hspec
      have hsel : selectNodeForRequest weights st req availableNodes = some b := by
        simp [selectNodeForRequest, selectNodeResourceAware, hempty, hsb]
      rw [hexec b hsel hmemb]
      obtain ⟨hb1, hb2, hb3⟩ := hcanb
      refine ⟨b, _, rfl, ⟨hb1, hb2, hb3⟩, ?_, ?_, ?_⟩
      · simp only [updateNodeLoad]
        simpa using hb1
      · simp only [updateNodeLoad]
        simpa using hb2
      · simp only [updateNodeLoad]
        simpa using hb3
  · rcases hsb : selectAccommodatingBest weights st req availableNodes with _ | ⟨b, bs⟩
    · rcases hfl : findLeastLoadedNode st availableNodes with _ | node
      · exact absurd hfl (findLeastLoadedNode_total st availableNodes hne)
      · have hfl' := hfl
        unfold findLeastLoadedNode at hfl'
        have hmem : node ∈ availableNodes := findLeastLoadedNode_mem st availableNodes
          availableNodes none (by intro b hb; simp at hb) (fun n hn => hn) node hfl'
        have hsel : selectNodeForRequest weights st req availableNodes = some node := by
          simp [selectNodeForRequest, selectNodeResourceAware, hempty, hsb, hfl]
        rw [hexec node hsel hmem]
        simp
    · have hsb' := hsb
      unfold selectAccommodatingBest at hsb'
      have hspec := selectAccommodatingBest_spec weights st req availableNodes
        availableNodes none (by intro p hp; simp at hp) (fun n hn => hn) (b, bs) hsb'
      have hsel : selectNodeForRequest weights st req availableNodes = some b := by
        simp [selectNodeForRequest, selectNodeResourceAware, hempty, hsb]
      rw [hexec b hsel hspec.2]
      simp

/-- Witness for the amended C1 theorem: a small request from the initial
state is admitted on CORE1 (the max-score accommodating node) within
capacity. -/
theorem resource_aware_admission_amended_witness :
    ∃ node st2,
      processServiceRequest initializeNodeWeights initialSimulationState
        { serviceId := "svc_small", cpuRequirement := 5, memoryRequirement := 1,
          transactionLoad := 5, priority := 5, timestamp := 0 } allNodesList 0 =
        some (node, st2) ∧
      canAccommodateRequest initialSimulationState node
        { serviceId := "svc_small", cpuRequirement := 5, memoryRequirement := 1,
          transactionLoad := 5, priority := 5, timestamp := 0 } ∧
      st2.loadBalancingMetrics.cpuDistribution node ≤
        (initialSimulationState.nodeMetrics node).cpuUtilization ∧
      st2.loadBalancingMetrics.memoryDistribution node ≤
        (initialSimulationState.nodeMetrics node).memoryUsage ∧
      st2.loadBalancingMetrics.transactionDistribution node ≤
        (initialSimulationState.nodeMetrics node).transactionsPerSec :=
  (resource_aware_admission_amended initializeNodeWeights initialSimulationState
    { serviceId := "svc_small", cpuRequirement := 5, memoryRequirement := 1,
      transactionLoad := 5, priority := 5, timestamp := 0 } allNodesList 0
    (by with_unfolding_all decide) (by with_unfolding_all decide)).1
    ⟨NodeId.EDGE1, by with_unfolding_all decide, by with_unfolding_all decide⟩

/-! ## AdaptiveMigrationEngine (adaptive_migration.py) -/

/-- Mirrors `migration_cooldown` (30 seconds between migrations per service). -/
def migrationCooldown : ℚ := 30

/-- Mirrors `max_concurrent_migrations`. -/
def maxConcurrentMigrations : ℕ := 3

/-- Mirrors `MigrationDecision` dataclass. -/
structure MigrationDecision where
  serviceId : String
  sourceNode : NodeId
  destinationNode : NodeId
  reason : String
  priority : ℚ
  estimatedBenefit : ℚ
deriving DecidableEq, Repr

/-- The mutable state of `AdaptiveMigrationEngine`: per-service last
attempt start times (a dict, here a function into `Option`), the
active-migration set, the append-only history, and the performance
histories feeding the trend priority. -/
structure AdaptiveMigrationEngine where
  lastMigrationTimes : String → Option ℚ
  activeMigrations : Finset String
  migrationHistory : List MigrationEvent
  nodePerformanceHistory : NodeId → List (ℚ × ℚ)
  loadImbalanceHistory : List (ℚ × ℚ)

/-- The engine as built by `AdaptiveMigrationEngine.__init__`. -/
def initAdaptiveMigrationEngine : AdaptiveMigrationEngine where
  lastMigrationTimes := fun _ => none
  activeMigrations := ∅
  migrationHistory := []
  nodePerformanceHistory := fun _ => []
  loadImbalanceHistory := []

/-- Mirrors `_update_performance_history` (adaptive_migration.py lines 100-125):
append the current cpu load per node and the current imbalance, then prune
entries older than 300 seconds. -/
def updatePerformanceHistory (e : AdaptiveMigrationEngine) (st : SimulationState)
    (now : ℚ) : AdaptiveMigrationEngine :=
  { e with
      nodePerformanceHistory := fun n =>
        ((e.nodePerformanceHistory n) ++
          [(now, st.loadBalancingMetrics.cpuDistribution n)]).filter
          (fun entry => now - 300 ≤ entry.1)
      loadImbalanceHistory :=
        ((e.loadImbalanceHistory) ++
          [(now, 1 - st.loadBalancingMetrics.loadBalanceIndex)]).filter
          (fun entry => now - 300 ≤ entry.1) }

/-- Mirrors `_identify_overloaded_nodes` (lines 127-162): active non-failed nodes
(walked in the canonical node order) with some dimension strictly above
80 percent of its baseline capacity. -/
def identifyOverloadedNodes (st : SimulationState) : List NodeId :=
  (allNodesList.filter (fun n => n ∈ st.activeNodes)).filter fun n =>
    n ∉ st.failedNodes ∧
    (st.loadBalancingMetrics.cpuDistribution n > (st.nodeMetrics n).cpuUtilization * 0.8 ∨
     st.loadBalancingMetrics.memoryDistribution n > (st.nodeMetrics n).memoryUsage * 0.8 ∨
     st.loadBalancingMetrics.transactionDistribution n >
       (st.nodeMetrics n).transactionsPerSec * 0.8)

/-- Mirrors `_identify_underloaded_nodes` (lines 164-199): active non-failed nodes
with all three dimensions strictly below 50 percent of capacity. -/
def identifyUnderloadedNodes (st : SimulationState) : List NodeId :=
  (allNodesList.filter (fun n => n ∈ st.activeNodes)).filter fun n =>
    n ∉ st.failedNodes ∧
    (st.loadBalancingMetrics.cpuDistribution n < (st.nodeMetrics n).cpuUtilization * 0.5 ∧
     st.loadBalancingMetrics.memoryDistribution n < (st.nodeMetrics n).memoryUsage * 0.5 ∧
     st.loadBalancingMetrics.transactionDistribution n <
       (st.nodeMetrics n).transactionsPerSec * 0.5)

/-- Mirrors `_find_migratable_services` (lines 241-261): services allocated to the
node, skipping any whose last attempt started less than 30 seconds ago
(the dict lookup defaults to 0) and any currently in `active_migrations`. -/
def findMigratableServices (e : AdaptiveMigrationEngine) (node : NodeId)
    (st : SimulationState) (now : ℚ) : List String :=
  (st.serviceAllocations.filter fun p =>
    p.2 = node ∧
    ¬(now - ((e.lastMigrationTimes p.1).getD 0) < migrationCooldown) ∧
    p.1 ∉ e.activeMigrations).map Prod.fst

/-- Mirrors `_get_node_reliability_score` (lines 323-333). -/
def getNodeReliabilityScore : NodeId → ℚ
  | NodeId.EDGE1 => 0.9
  | NodeId.EDGE2 => 0.7
  | NodeId.CORE1 => 0.6
  | NodeId.CORE2 => 0.8
  | NodeId.CLOUD1 => 0.7

/-- Mirrors `_get_node_layer` (lines 352-359). -/
def getNodeLayer : NodeId → ℤ
  | NodeId.EDGE1 => 0
  | NodeId.EDGE2 => 0
  | NodeId.CORE1 => 1
  | NodeId.CORE2 => 1
  | NodeId.CLOUD1 => 2

/-- Mirrors `_get_network_proximity_score` (lines 335-350): 1.0 for the same
layer, 0.7 for adjacent layers, 0.4 otherwise. -/
def getNetworkProximityScore (source destination : NodeId) : ℚ :=
  if getNodeLayer source = getNodeLayer destination then 1
  else if (getNodeLayer source - getNodeLayer destination).natAbs = 1 then 0.7
  else 0.4

/-- Mirrors `_calculate_destination_score` (lines 287-321): capacity, performance,
reliability and proximity, weighted 0.4 / 0.3 / 0.2 / 0.1. -/
def calculateDestinationScore (sourceNode destinationNode : NodeId)
    (st : SimulationState) : ℚ :=
  let metrics := st.nodeMetrics destinationNode
  let cpuUtilization :=
    if 0 < metrics.cpuUtilization then
      st.loadBalancingMetrics.cpuDistribution destinationNode / metrics.cpuUtilization
    else 0
  let memoryUtilization :=
    if 0 < metrics.memoryUsage then
      st.loadBalancingMetrics.memoryDistribution destinationNode / metrics.memoryUsage
    else 0
  let transactionUtilization :=
    if 0 < metrics.transactionsPerSec then
      st.loadBalancingMetrics.transactionDistribution destinationNode /
        metrics.transactionsPerSec
    else 0
  let capacityScore := (1 - cpuUtilization) * 0.4 + (1 - memoryUtilization) * 0.3 +
    (1 - transactionUtilization) * 0.3
  let performanceScore := (1 / metrics.latency) * (metrics.throughput / 1000)
  let reliabilityScore := getNodeReliabilityScore destinationNode
  let proximityScore := getNetworkProximityScore sourceNode destinationNode
  capacityScore * 0.4 + performanceScore * 0.3 + reliabilityScore * 0.2 +
    proximityScore * 0.1

/-- Mirrors `_find_best_destination` (lines 263-285): the strictly best-scoring
underloaded node other than the source. -/
def findBestDestination (sourceNode : NodeId) (underloadedNodes : List NodeId)
    (st : SimulationState) : Option NodeId :=
  underloadedNodes.foldl
    (fun best destinationNode =>
      if destinationNode = sourceNode then best
      else
        match best with
        | none => some destinationNode
        | some b =>
          if calculateDestinationScore sourceNode b st <
              calculateDestinationScore sourceNode destinationNode st then
            some destinationNode
          else some b)
    none

/-- Mirrors `_calculate_load_trend_priority` (lines 392-407): slope of the last up
to 10 cpu-load samples, scaled into `[0, 1]`. -/
def calculateLoadTrendPriority (e : AdaptiveMigrationEngine) (node : NodeId) : ℚ :=
  let history := e.nodePerformanceHistory node
  if history.length < 2 then 0
  else
    let recentLoads := (history.map Prod.snd).drop (history.length - 10)
    if recentLoads.length < 2 then 0
    else
      let trend := (recentLoads.getLast?.getD 0 - recentLoads.head?.getD 0) /
        recentLoads.length
      min 1 (max 0 (trend / 10))

/-- Mirrors `_calculate_migration_priority` (lines 365-390): overload severity on
cpu and memory weighted 0.7 against the load trend weighted 0.3. -/
def calculateMigrationPriority (e : AdaptiveMigrationEngine) (sourceNode : NodeId)
    (st : SimulationState) : ℚ :=
  let metrics := st.nodeMetrics sourceNode
  let cpuOverload := max 0
    (st.loadBalancingMetrics.cpuDistribution sourceNode - metrics.cpuUtilization * 0.8)
  let cpuOverloadFrac :=
    if 0 < metrics.cpuUtilization then cpuOverload / (metrics.cpuUtilization * 0.2) else 0
  let memoryOverload := max 0
    (st.loadBalancingMetrics.memoryDistribution sourceNode - metrics.memoryUsage * 0.8)
  let memoryOverloadFrac :=
    if 0 < metrics.memoryUsage then memoryOverload / (metrics.memoryUsage * 0.2) else 0
  let overloadPriority := min 1 (max cpuOverloadFrac memoryOverloadFrac)
  let trendPriority := calculateLoadTrendPriority e sourceNode
  min 1 (max 0 (overloadPriority * 0.7 + trendPriority * 0.3))

/-- Mirrors `_estimate_migration_benefit` (lines 409-428). -/
def estimateMigrationBenefit (sourceNode : NodeId) (st : SimulationState) : ℚ :=
  let metrics := st.nodeMetrics sourceNode
  let cpuBenefit := if 0 < metrics.cpuUtilization then 5 / metrics.cpuUtilization else 0
  let memoryBenefit := if 0 < metrics.memoryUsage then 0.5 / metrics.memoryUsage else 0
  min 1 (max 0 ((cpuBenefit + memoryBenefit) / 2))

/-- Mirrors `_generate_migration_decisions` (lines 201-239): one decision per
migratable service of each overloaded node that has a best destination. -/
def generateMigrationDecisions (e : AdaptiveMigrationEngine) (st : SimulationState)
    (now : ℚ) (overloadedNodes underloadedNodes : List NodeId) :
    List MigrationDecision :=
  overloadedNodes.flatMap fun sourceNode =>
    (findMigratableServices e sourceNode st now).filterMap fun serviceId =>
      (findBestDestination sourceNode underloadedNodes st).map fun bestDestination =>
        { serviceId := serviceId
          sourceNode := sourceNode
          destinationNode := bestDestination
          reason := "Load balancing: " ++ nodeIdValue sourceNode ++ " overloaded"
          priority := calculateMigrationPriority e sourceNode st
          estimatedBenefit := estimateMigrationBenefit sourceNode st }

/-- A stable descending insertion by priority, modelling
`sorted(migration_decisions, key=lambda d: d.priority, reverse=True)`. -/
def insertByPriority (d : MigrationDecision) :
    List MigrationDecision → List MigrationDecision
  | [] => [d]
  | x :: xs => if x.priority ≤ d.priority then d :: x :: xs else x :: insertByPriority d xs

/-- The stable descending sort of the decisions. -/
def sortDecisionsByPriority (l : List MigrationDecision) : List MigrationDecision :=
  l.foldr insertByPriority []

/-- The `MigrationEvent` built by `_execute_migration_decision` (lines
430-465): `successOf` is the `random.random() < migration_success_rate`
draw and `durationOf` the `random.uniform(1.0, 10.0)` migration time for
the service. -/
def migrationEventOfDecision (now : ℚ) (successOf : String → Bool)
    (durationOf : String → ℚ) (d : MigrationDecision) : MigrationEvent :=
  let success := successOf d.serviceId
  { serviceId := d.serviceId
    sourceNode := d.sourceNode
    destinationNode := d.destinationNode
    startTime := now
    completionTime := if success then some (now + durationOf d.serviceId) else none
    success := success
    reason := d.reason }

/-- The engine mutation of `_execute_migration_decision`: the last-attempt
time is stamped unconditionally, the event is appended to the history, and
on failure the service is discarded from `active_migrations`. -/
def executeMigrationDecision (d : MigrationDecision) (now : ℚ)
    (successOf : String → Bool) (durationOf : String → ℚ)
    (e : AdaptiveMigrationEngine) : AdaptiveMigrationEngine × MigrationEvent :=
  let mig := migrationEventOfDecision now successOf durationOf d
  ({ e with
      lastMigrationTimes := fun s => if s = d.serviceId then some now else e.lastMigrationTimes s
      migrationHistory := e.migrationHistory ++ [mig]
      activeMigrations :=
        if mig.success then e.activeMigrations else e.activeMigrations.erase d.serviceId },
   mig)

/-- The execution loop at the end of `evaluate_migrations` (lines 89-97):
decisions in order, stopping at the concurrency cap, each executed event
collected and its service id added to `active_migrations` (also for failed
attempts, which were just discarded inside the execution). -/
def executeDecisionsLoop (now : ℚ) (successOf : String → Bool)
    (durationOf : String → ℚ) :
    List MigrationDecision → AdaptiveMigrationEngine → List MigrationEvent →
    AdaptiveMigrationEngine × List MigrationEvent
  | [], e, migrations => (e, migrations)
  | d :: rest, e, migrations =>
    if maxConcurrentMigrations ≤ migrations.length then (e, migrations)
    else
      let r := executeMigrationDecision d now successOf durationOf e
      let e2 := { r.1 with activeMigrations := insert d.serviceId r.1.activeMigrations }
      executeDecisionsLoop now successOf durationOf rest e2 (migrations ++ [r.2])

/-- Mirrors `evaluate_migrations` (lines 56-98): skip everything at the
concurrency cap; update the performance history; return nothing without
both an overloaded and an underloaded node; otherwise execute the sorted
decisions up to the cap. -/
def evaluateMigrations (e : AdaptiveMigrationEngine) (st : SimulationState)
    (now : ℚ) (successOf : String → Bool) (durationOf : String → ℚ) :
    AdaptiveMigrationEngine × List MigrationEvent :=
  if maxConcurrentMigrations ≤ e.activeMigrations.card then (e, [])
  else
    let e1 := updatePerformanceHistory e st now
    let overloadedNodes := identifyOverloadedNodes st
    let underloadedNodes := identifyUnderloadedNodes st
    if overloadedNodes.isEmpty ∨ underloadedNodes.isEmpty then (e1, [])
    else
      executeDecisionsLoop now successOf durationOf
        (sortDecisionsByPriority
          (generateMigrationDecisions e1 st now overloadedNodes underloadedNodes))
        e1 []

/-- Mirrors `complete_migration` (lines 467-470), never invoked by the engine
tick loop. -/
def completeMigration (e : AdaptiveMigrationEngine) (serviceId : String) :
    AdaptiveMigrationEngine :=
  { e with activeMigrations := e.activeMigrations.erase serviceId }

/-- One tick worth of input to the migration section of
`_update_system_state`: the state snapshot, the time, and the random
draws. -/
structure MigrationTickInput where
  state : SimulationState
  now : ℚ
  successOf : String → Bool
  durationOf : String → ℚ

/-- The tick loop from an arbitrary engine/history accumulator. -/
def runMigrationTicksFrom (acc : AdaptiveMigrationEngine × List MigrationEvent)
    (ticks : List MigrationTickInput) :
    AdaptiveMigrationEngine × List MigrationEvent :=
  ticks.foldl
    (fun acc tk =>
      let r := evaluateMigrations acc.1 tk.state tk.now tk.successOf tk.durationOf
      (r.1, acc.2 ++ r.2))
    acc

/-- The migration section of the engine tick loop
(load_balancer_simulation.py lines 371-380): each tick calls
`evaluate_migrations` and extends the history with the produced events;
`complete_migration` is never called. -/
def runMigrationTicks (ticks : List MigrationTickInput) :
    AdaptiveMigrationEngine × List MigrationEvent :=
  runMigrationTicksFrom (initAdaptiveMigrationEngine, []) ticks

lemma insert_erase_self {α : Type} [DecidableEq α] (a : α) (s : Finset α) :
    insert a (s.erase a) = insert a s := by
  ext x
  simp only [Finset.mem_insert, Finset.mem_erase]
  constructor
  · rintro (rfl | ⟨_, hx⟩)
    · exact Or.inl rfl
    · exact Or.inr hx
  · rintro (rfl | hx)
    · exact Or.inl rfl
    · by_cases hxa : x = a
      · exact Or.inl hxa
      · exact Or.inr ⟨hxa, hx⟩

lemma executeMigrationDecision_active (d : MigrationDecision) (now : ℚ)
    (so : String → Bool) (du : String → ℚ) (e : AdaptiveMigrationEngine) :
    insert d.serviceId (executeMigrationDecision d now so du e).1.activeMigrations =
      insert d.serviceId e.activeMigrations := by
  unfold executeMigrationDecision
  dsimp only
  by_cases hs : (migrationEventOfDecision now so du d).success
  · rw [if_pos hs]
  · rw [if_neg hs]
    exact insert_erase_self d.serviceId e.activeMigrations

lemma executeMigrationDecision_last (d : MigrationDecision) (now : ℚ)
    (so : String → Bool) (du : String → ℚ) (e : AdaptiveMigrationEngine) :
    (executeMigrationDecision d now so du e).1.lastMigrationTimes =
      fun s => if s = d.serviceId then some now else e.lastMigrationTimes s := rfl

lemma executeDecisionsLoop_events (now : ℚ) (so : String → Bool) (du : String → ℚ) :
    ∀ (ds : List MigrationDecision) (e : AdaptiveMigrationEngine)
      (ms : List MigrationEvent),
      (executeDecisionsLoop now so du ds e ms).2 =
        ms ++ (ds.take (maxConcurrentMigrations - ms.length)).map
          (migrationEventOfDecision now so du) := by
  intro ds
  induction ds with
  | nil =>
    intro e ms
    simp [executeDecisionsLoop]
  | cons d rest ih =>
    intro e ms
    by_cases hcap : maxConcurrentMigrations ≤ ms.length
    · have hz : maxConcurrentMigrations - ms.length = 0 := Nat.sub_eq_zero_of_le hcap
      simp [executeDecisionsLoop, hcap, hz]
    · have hpos : 0 < maxConcurrentMigrations - ms.length :=
        Nat.sub_pos_of_lt (Nat.lt_of_not_le hcap)
      obtain ⟨k, hk⟩ : ∃ k, maxConcurrentMigrations - ms.length = k + 1 :=
        ⟨maxConcurrentMigrations - ms.length - 1, (Nat.succ_pred_eq_of_pos hpos).symm⟩
      have hk' : maxConcurrentMigrations - (ms.length + 1) = k := by omega
      simp only [executeDecisionsLoop, if_neg hcap]
      rw [ih]
      simp only [List.length_append, List.length_cons, List.length_nil, hk']
      rw [hk, List.take_succ_cons, List.map_cons, List.append_assoc]
      rfl

lemma executeDecisionsLoop_active (now : ℚ) (so : String → Bool) (du : String → ℚ) :
    ∀ (ds : List MigrationDecision) (e : AdaptiveMigrationEngine)
      (ms : List MigrationEvent),
      (executeDecisionsLoop now so du ds e ms).1.activeMigrations =
        e.activeMigrations ∪
          ((ds.take (maxConcurrentMigrations - ms.length)).map
            (fun d => d.serviceId)).toFinset := by
  intro ds
  induction ds with
  | nil =>
    intro e ms
    simp [executeDecisionsLoop]
  | cons d rest ih =>
    intro e ms
    by_cases hcap : maxConcurrentMigrations ≤ ms.length
    · have hz : maxConcurrentMigrations - ms.length = 0 := Nat.sub_eq_zero_of_le hcap
      simp [executeDecisionsLoop, hcap, hz]
    · have hpos : 0 < maxConcurrentMigrations - ms.length :=
        Nat.sub_pos_of_lt (Nat.lt_of_not_le hcap)
      obtain ⟨k, hk⟩ : ∃ k, maxConcurrentMigrations - ms.length = k + 1 :=
        ⟨maxConcurrentMigrations - ms.length - 1, (Nat.succ_pred_eq_of_pos hpos).symm⟩
      have hk' : maxConcurrentMigrations - (ms.length + 1) = k := by omega
      simp only [executeDecisionsLoop, if_neg hcap]
      rw [ih]
      simp only [List.length_append, List.length_cons, List.length_nil, hk']
      rw [hk, List.take_succ_cons, List.map_cons, List.toFinset_cons]
      rw [Finset.union_insert]
      have hact : (executeMigrationDecision d now so du e).1.activeMigrations =
          if (migrationEventOfDecision now so du d).success then e.activeMigrations
          else e.activeMigrations.erase d.serviceId := rfl
      show insert d.serviceId (executeMigrationDecision d now so du e).1.activeMigrations ∪ _ =
        insert d.serviceId (e.activeMigrations ∪ _)
      rw [executeMigrationDecision_active, Finset.insert_union]

lemma updatePerformanceHistory_fields (e : AdaptiveMigrationEngine)
    (st : SimulationState) (now : ℚ) :
    (updatePerformanceHistory e st now).lastMigrationTimes = e.lastMigrationTimes ∧
    (updatePerformanceHistory e st now).activeMigrations = e.activeMigrations :=
  ⟨rfl, rfl⟩

lemma insertByPriority_perm (d : MigrationDecision) (l : List MigrationDecision) :
    (insertByPriority d l).Perm (d :: l) := by
  induction l with
  | nil => exact List.Perm.refl _
  | cons x xs ih =>
    unfold insertByPriority
    split_ifs with h
    · exact List.Perm.refl _
    · exact (List.Perm.cons x ih).trans (List.Perm.swap d x xs)

lemma sortDecisionsByPriority_perm (l : List MigrationDecision) :
    (sortDecisionsByPriority l).Perm l := by
  induction l with
  | nil => exact List.Perm.refl _
  | cons d rest ih =>
    unfold sortDecisionsByPriority at *
    simp only [List.foldr_cons]
    exact (insertByPriority_perm d _).trans (List.Perm.cons d ih)

lemma mem_findMigratableServices (e : AdaptiveMigrationEngine) (node : NodeId)
    (st : SimulationState) (now : ℚ) (s : String) :
    s ∈ findMigratableServices e node st now →
    (s, node) ∈ st.serviceAllocations ∧
    ¬(now - ((e.lastMigrationTimes s).getD 0) < migrationCooldown) ∧
    s ∉ e.activeMigrations := by
  intro hs
  unfold findMigratableServices at hs
  rcases List.mem_map.mp hs with ⟨p, hp, hps⟩
  obtain ⟨ps, pn⟩ := p
  obtain ⟨hmem, hcond⟩ := List.mem_filter.mp hp
  simp only [decide_eq_true_eq] at hcond
  obtain ⟨hnode, hcool, hact⟩ := hcond
  dsimp only at hps hnode
  subst hps
  subst hnode
  exact ⟨hmem, hcool, hact⟩

lemma mem_generateMigrationDecisions (e : AdaptiveMigrationEngine)
    (st : SimulationState) (now : ℚ) (over under : List NodeId)
    (d : MigrationDecision) :
    d ∈ generateMigrationDecisions e st now over under →
    d.sourceNode ∈ over ∧ d.serviceId ∈ findMigratableServices e d.sourceNode st now := by
  intro hd
  unfold generateMigrationDecisions at hd
  rcases List.mem_flatMap.mp hd with ⟨src, hsrc, hmem⟩
  rcases List.mem_filterMap.mp hmem with ⟨sid, hsid, hsome⟩
  rcases Option.map_eq_some'.mp hsome with ⟨bd, _, hdd⟩
  have hdsid : d.serviceId = sid := by rw [← hdd]
  have hdsrc : d.sourceNode = src := by rw [← hdd]
  rw [hdsid, hdsrc]
  exact ⟨hsrc, hsid⟩

lemma nodup_keys_value_unique :
    ∀ (l : List (String × NodeId)), (l.map Prod.fst).Nodup →
      ∀ (k : String) (v1 v2 : NodeId), (k, v1) ∈ l → (k, v2) ∈ l → v1 = v2 := by
  intro l
  induction l with
  | nil =>
    intro _ k v1 v2 h
    simp at h
  | cons p rest ih =>
    intro hnd k v1 v2 h1 h2
    simp only [List.map_cons, List.nodup_cons] at hnd
    obtain ⟨hp, hrest⟩ := hnd
    rcases List.mem_cons.mp h1 with he1 | h1'
    · rcases List.mem_cons.mp h2 with he2 | h2'
      · rw [← he2] at he1
        exact (Prod.ext_iff.mp he1).2
      · exfalso
        apply hp
        rw [← he1]
        exact List.mem_map.mpr ⟨(k, v2), h2', rfl⟩
    · rcases List.mem_cons.mp h2 with he2 | h2'
      · exfalso
        apply hp
        rw [← he2]
        exact List.mem_map.mpr ⟨(k, v1), h1', rfl⟩
      · exact ih hrest k v1 v2 h1' h2'

lemma findMigratableServices_nodup (e : AdaptiveMigrationEngine) (node : NodeId)
    (st : SimulationState) (now : ℚ)
    (h : (st.serviceAllocations.map Prod.fst).Nodup) :
    (findMigratableServices e node st now).Nodup := by
  unfold findMigratableServices
  exact (List.Sublist.map Prod.fst (List.filter_sublist _)).nodup h

lemma filterMap_decision_sids_sublist
    (h : String → Option MigrationDecision)
    (hprop : ∀ s d, h s = some d → d.serviceId = s) :
    ∀ (l : List String),
      List.Sublist ((l.filterMap h).map (fun d => d.serviceId)) l := by
  intro l
  induction l with
  | nil => simp
  | cons x xs ih =>
    rw [List.filterMap_cons]
    cases hx : h x with
    | none => exact ih.cons x
    | some d =>
      rw [List.map_cons, hprop x d hx]
      exact ih.cons₂ x

lemma generateMigrationDecisions_sids_nodup (e : AdaptiveMigrationEngine)
    (st : SimulationState) (now : ℚ) (over under : List NodeId)
    (hover : over.Nodup)
    (halloc : (st.serviceAllocations.map Prod.fst).Nodup) :
    ((generateMigrationDecisions e st now over under).map
      (fun d => d.serviceId)).Nodup := by
  unfold generateMigrationDecisions
  rw [List.map_flatMap]
  apply List.nodup_flatMap.mpr
  have hsub : ∀ src : NodeId,
      List.Sublist
        (((findMigratableServices e src st now).filterMap fun serviceId =>
          (findBestDestination src under st).map fun bestDestination =>
            ({ serviceId := serviceId
               sourceNode := src
               destinationNode := bestDestination
               reason := "Load balancing: " ++ nodeIdValue src ++ " overloaded"
               priority := calculateMigrationPriority e src st
               estimatedBenefit := estimateMigrationBenefit src st } :
              MigrationDecision)).map (fun d => d.serviceId))
        (findMigratableServices e src st now) := by
    intro src
    apply filterMap_decision_sids_sublist
    intro s d hd
    rcases Option.map_eq_some'.mp hd with ⟨bd, _, hdd⟩
    rw [← hdd]
  constructor
  · intro src _
    exact (hsub src).nodup (findMigratableServices_nodup e src st now halloc)
  · apply List.Pairwise.imp ?_ hover
    intro a b hne
    intro s hs1 hs2
    have h1 : s ∈ findMigratableServices e a st now := (hsub a).subset hs1
    have h2 : s ∈ findMigratableServices e b st now := (hsub b).subset hs2
    have ha := (mem_findMigratableServices e a st now s h1).1
    have hb := (mem_findMigratableServices e b st now s h2).1
    exact hne (nodup_keys_value_unique st.serviceAllocations halloc s a b ha hb)

lemma identifyOverloadedNodes_nodup (st : SimulationState) :
    (identifyOverloadedNodes st).Nodup := by
  unfold identifyOverloadedNodes
  apply List.Nodup.filter
  apply List.Nodup.filter
  decide

lemma evaluateMigrations_spec (e : AdaptiveMigrationEngine) (st : SimulationState)
    (now : ℚ) (so : String → Bool) (du : String → ℚ)
    (halloc : (st.serviceAllocations.map Prod.fst).Nodup) :
    (evaluateMigrations e st now so du).1.activeMigrations =
      e.activeMigrations ∪
        (((evaluateMigrations e st now so du).2).map (fun m => m.serviceId)).toFinset ∧
    (((evaluateMigrations e st now so du).2).map (fun m => m.serviceId)).Nodup ∧
    (∀ s ∈ ((evaluateMigrations e st now so du).2).map (fun m => m.serviceId),
      s ∉ e.activeMigrations) := by
  unfold evaluateMigrations
  by_cases hcap : maxConcurrentMigrations ≤ e.activeMigrations.card
  · rw [if_pos hcap]
    simp
  · rw [if_neg hcap]
    dsimp only
    by_cases hempty :
        (identifyOverloadedNodes st).isEmpty ∨ (identifyUnderloadedNodes st).isEmpty
    · rw [if_pos hempty]
      simp
      rfl
    · rw [if_neg hempty]
      have hev := executeDecisionsLoop_events now so du
        (sortDecisionsByPriority (generateMigrationDecisions
          (updatePerformanceHistory e st now) st now (identifyOverloadedNodes st)
          (identifyUnderloadedNodes st)))
        (updatePerformanceHistory e st now) []
      have hact := executeDecisionsLoop_active now so du
        (sortDecisionsByPriority (generateMigrationDecisions
          (updatePerformanceHistory e st now) st now (identifyOverloadedNodes st)
          (identifyUnderloadedNodes st)))
        (updatePerformanceHistory e st now) []
      have hsid : ∀ ds : List MigrationDecision,
          (ds.map (migrationEventOfDecision now so du)).map (fun m => m.serviceId) =
            ds.map (fun d => d.serviceId) := by
        intro ds
        rw [List.map_map]
        rfl
      have hnd : ((generateMigrationDecisions (updatePerformanceHistory e st now) st
          now (identifyOverloadedNodes st) (identifyUnderloadedNodes st)).map
            (fun d => d.serviceId)).Nodup :=
        generateMigrationDecisions_sids_nodup _ st now _ _
          (identifyOverloadedNodes_nodup st) halloc
      have hsortnd : ((sortDecisionsByPriority (generateMigrationDecisions
          (updatePerformanceHistory e st now) st now (identifyOverloadedNodes st)
          (identifyUnderloadedNodes st))).map (fun d => d.serviceId)).Nodup :=
        ((List.Perm.map _ (sortDecisionsByPriority_perm _)).symm).nodup hnd
      refine ⟨?_, ?_, ?_⟩
      · rw [hact, hev]
        simp only [List.nil_append, List.length_nil, Nat.sub_zero]
        rw [hsid]
        rfl
      · rw [hev]
        simp only [List.nil_append]
        rw [hsid]
        exact (List.Sublist.map (fun d : MigrationDecision => d.serviceId)
          (List.take_sublist _ _)).nodup hsortnd
      · intro s hs
        rw [hev] at hs
        simp only [List.nil_append] at hs
        rw [hsid] at hs
        rcases List.mem_map.mp hs with ⟨d, hd, rfl⟩
        have hd1 := (List.take_sublist _ _).subset hd
        have hd2 := (sortDecisionsByPriority_perm _).subset hd1
        have hm := mem_generateMigrationDecisions _ st now _ _ d hd2
        exact (mem_findMigratableServices _ d.sourceNode st now d.serviceId hm.2).2.2

lemma runMigrationTicksFrom_inv :
    ∀ (ticks : List MigrationTickInput)
      (acc : AdaptiveMigrationEngine × List MigrationEvent),
      (∀ tk ∈ ticks, (tk.state.serviceAllocations.map Prod.fst).Nodup) →
      acc.1.activeMigrations = (acc.2.map (fun m => m.serviceId)).toFinset →
      (acc.2.map (fun m => m.serviceId)).Nodup →
      (runMigrationTicksFrom acc ticks).1.activeMigrations =
        ((runMigrationTicksFrom acc ticks).2.map (fun m => m.serviceId)).toFinset ∧
      ((runMigrationTicksFrom acc ticks).2.map (fun m => m.serviceId)).Nodup := by
  intro ticks
  induction ticks with
  | nil =>
    intro acc _ h1 h2
    exact ⟨h1, h2⟩
  | cons tk rest ih =>
    intro acc hwf h1 h2
    have hspec := evaluateMigrations_spec acc.1 tk.state tk.now tk.successOf
      tk.durationOf (hwf tk (List.mem_cons_self tk rest))
    unfold runMigrationTicksFrom
    simp only [List.foldl_cons]
    apply ih _ (fun t ht => hwf t (List.mem_cons_of_mem tk ht))
    · rw [hspec.1, h1, List.map_append, List.toFinset_append]
    · rw [List.map_append]
      apply List.nodup_append.mpr
      refine ⟨h2, hspec.2.1, ?_⟩
      intro s hs1 hs2
      have hnot := hspec.2.2 s hs2
      rw [h1] at hnot
      exact hnot (List.mem_toFinset.mpr hs1)

/-- Claim C10: over any run of the engine tick loop (which never calls
`complete_migration`), the active-migration set is exactly the set of
service ids of all produced events and its size equals the number of
produced events; it grows monotonically across every call; and once three
events have been produced in total, every further call to
`evaluate_migrations` returns the empty list. -/
theorem active_migrations_saturate
    (ticks : List MigrationTickInput)
    (hwf : ∀ tk ∈ ticks, (tk.state.serviceAllocations.map Prod.fst).Nodup) :
    ((runMigrationTicks ticks).1.activeMigrations =
      (((runMigrationTicks ticks).2).map (fun m => m.serviceId)).toFinset) ∧
    ((runMigrationTicks ticks).1.activeMigrations.card =
      (runMigrationTicks ticks).2.length) ∧
    (∀ (e : AdaptiveMigrationEngine) (st : SimulationState) (now : ℚ)
      (so : String → Bool) (du : String → ℚ),
      e.activeMigrations ⊆ (evaluateMigrations e st now so du).1.activeMigrations) ∧
    (3 ≤ (runMigrationTicks ticks).2.length →
      ∀ tk : MigrationTickInput,
        (evaluateMigrations (runMigrationTicks ticks).1 tk.state tk.now
          tk.successOf tk.durationOf).2 = []) := by
  have hinv := runMigrationTicksFrom_inv ticks (initAdaptiveMigrationEngine, []) hwf
    (by simp [initAdaptiveMigrationEngine]) (by simp)
  have hcard : (runMigrationTicks ticks).1.activeMigrations.card =
      (runMigrationTicks ticks).2.length := by
    show (runMigrationTicksFrom (initAdaptiveMigrationEngine, []) ticks).1.activeMigrations.card = _
    rw [hinv.1]
    rw [List.toFinset_card_of_nodup hinv.2]
    rw [List.length_map]
    rfl
  refine ⟨hinv.1, hcard, ?_, ?_⟩
  · intro e st now so du
    unfold evaluateMigrations
    by_cases hcap : maxConcurrentMigrations ≤ e.activeMigrations.card
    · rw [if_pos hcap]
    · rw [if_neg hcap]
      dsimp only
      by_cases hempty :
          (identifyOverloadedNodes st).isEmpty ∨ (identifyUnderloadedNodes st).isEmpty
      · rw [if_pos hempty]
        exact Finset.Subset.refl _
      · rw [if_neg hempty]
        rw [executeDecisionsLoop_active]
        exact Finset.subset_union_left
  · intro hlen tk
    have hge : maxConcurrentMigrations ≤
        (runMigrationTicks ticks).1.activeMigrations.card := by
      rw [hcard]
      exact hlen
    unfold evaluateMigrations
    rw [if_pos hge]

/-- The C2/C10 scenario state: one service on EDGE1, whose CPU load 40
exceeds 80 percent of its baseline capacity 45, while every other node is
idle (hence underloaded). -/
def c2State : SimulationState :=
  { initialSimulationState with
      serviceAllocations := [("s1", NodeId.EDGE1)]
      loadBalancingMetrics := { initialSimulationState.loadBalancingMetrics with
        cpuDistribution := fun n => if n = NodeId.EDGE1 then 40 else 0 } }

/-- Witness for C10 on a one-tick run over the scenario state, with the
well-formedness hypothesis (allocation keys without duplicates) discharged
concretely. -/
theorem active_migrations_saturate_witness :
    (runMigrationTicks [⟨c2State, 1000, fun _ => false, fun _ => 5⟩]).1.activeMigrations.card =
      (runMigrationTicks [⟨c2State, 1000, fun _ => false, fun _ => 5⟩]).2.length :=
  (active_migrations_saturate [⟨c2State, 1000, fun _ => false, fun _ => 5⟩]
    (by
      intro tk htk
      simp only [List.mem_singleton] at htk
      subst htk
      with_unfolding_all decide)).2.1

/-- Counterexample to claim C2 as stated: the engine charges the cooldown
for failed attempts too.  On the scenario state, a first call at time 1000
with a failed success draw produces exactly one failed event for `s1` and
stamps `last_migration_times["s1"] = 1000`; a second call one second later
produces nothing for `s1` even after `complete_migration` released it from
the active set, refuting that a failed attempt leaves the service eligible
immediately. -/
theorem migration_cooldown_counterexample :
    (((evaluateMigrations initAdaptiveMigrationEngine c2State 1000 (fun _ => false)
        (fun _ => 5)).2).map (fun m => (m.serviceId, m.success)) = [("s1", false)]) ∧
    ((evaluateMigrations initAdaptiveMigrationEngine c2State 1000 (fun _ => false)
        (fun _ => 5)).1.lastMigrationTimes "s1" = some 1000) ∧
    ((evaluateMigrations
        (completeMigration (evaluateMigrations initAdaptiveMigrationEngine c2State 1000
          (fun _ => false) (fun _ => 5)).1 "s1")
        c2State 1001 (fun _ => false) (fun _ => 5)).2 = []) := by
  refine ⟨?_, ?_, ?_⟩ <;> (set_option maxRecDepth 8000 in with_unfolding_all decide)

/-- Claim C2 (amended): for every service, no second migration attempt is
executed within 30 seconds of the last attempt start time, regardless of
the outcome of that attempt — the cooldown is charged also when the
attempt failed (the counterexample shows the failed service is not
re-eligible immediately). -/
theorem migration_cooldown_amended (e : AdaptiveMigrationEngine)
    (st : SimulationState) (now : ℚ) (so : String → Bool) (du : String → ℚ)
    (s : String) (t : ℚ)
    (hlast : e.lastMigrationTimes s = some t)
    (hcool : now - t < migrationCooldown) :
    ∀ mig ∈ (evaluateMigrations e st now so du).2, mig.serviceId ≠ s := by
  intro mig hmig heq
  unfold evaluateMigrations at hmig
  by_cases hcap : maxConcurrentMigrations ≤ e.activeMigrations.card
  · rw [if_pos hcap] at hmig
    simp at hmig
  · rw [if_neg hcap] at hmig
    dsimp only at hmig
    by_cases hempty :
        (identifyOverloadedNodes st).isEmpty ∨ (identifyUnderloadedNodes st).isEmpty
    · rw [if_pos hempty] at hmig
      simp at hmig
    · rw [if_neg hempty] at hmig
      rw [executeDecisionsLoop_events] at hmig
      simp only [List.nil_append] at hmig
      rcases List.mem_map.mp hmig with ⟨d, hd, hmigd⟩
      have hd2 := (sortDecisionsByPriority_perm _).subset
        ((List.take_sublist _ _).subset hd)
      have hm := mem_generateMigrationDecisions _ st now _ _ d hd2
      have hc := (mem_findMigratableServices _ d.sourceNode st now d.serviceId hm.2).2.1
      rw [← hmigd] at heq
      have hsd : d.serviceId = s := heq
      rw [hsd] at hc
      have hl : (updatePerformanceHistory e st now).lastMigrationTimes s = some t := hlast
      rw [hl] at hc
      simp only [Option.getD_some] at hc
      exact hc hcool

/-- Witness for the amended C2 theorem: after the failed attempt for `s1`
at time 1000, the events of a call at time 1001 contain no occurrence of
`s1`. -/
theorem migration_cooldown_amended_witness :
    ((evaluateMigrations
        (evaluateMigrations initAdaptiveMigrationEngine c2State 1000 (fun _ => false)
          (fun _ => 5)).1 c2State 1001 (fun _ => false) (fun _ => 5)).2.map
      (fun m => m.serviceId)).count "s1" = 0 := by
  apply List.count_eq_zero.mpr
  intro hmem
  rcases List.mem_map.mp hmem with ⟨mig, hmig, hsid⟩
  exact migration_cooldown_amended _ c2State 1001 _ _ "s1" 1000
    (by set_option maxRecDepth 8000 in with_unfolding_all decide)
    (by norm_num [migrationCooldown]) mig hmig hsid

end SynapseNet
